import Mathlib

/-!
Verification of the spectral-analysis pipeline of the `waveform` audio
visualizer (`src/src/*.cpp`, `src/src/*.hpp`).

The C++ code computes with 32-bit floats; this development embeds the
arithmetic in exact real arithmetic (`ℝ`), which is the reading under which
the specification's numeric formulas are stated.  Machine integers
(`size_t`, `uint64_t`, `int`) are embedded as `ℕ`/`ℤ` with wraparound made
explicit where it matters.  External collaborators (the FFT plan, the OBS
`circlebuf` byte FIFO and its `ns_to_audio_frames` helpers, wall-clock
reads) are modelled as parameters or by their documented semantics:
`circlebuf` is a FIFO, embedded as a `List ℝ` of samples with
`circlebuf_push_back` appending and `circlebuf_pop_front` dropping from the
front.  SIMD intrinsics in the AVX/AVX2 backends are embedded by their
per-lane (elementwise) semantics.
-/

namespace Waveform

/-- The list of integers `a, a+1, ..., b-1` (empty when `b ≤ a`); embeds the
C++ loops `for (auto i = a; i < b; ++i)`. -/
def intRange (a b : ℤ) : List ℤ :=
  (List.range (b - a).toNat).map (fun (j : ℕ) => a + (j : ℤ))

theorem intRange_length (a b : ℤ) : (intRange a b).length = (b - a).toNat := by
  unfold intRange
  rw [List.length_map, List.length_range]

theorem mem_intRange {a b i : ℤ} : i ∈ intRange a b ↔ a ≤ i ∧ i < b := by
  unfold intRange
  rw [List.mem_map]
  constructor
  · rintro ⟨j, hj, rfl⟩
    rw [List.mem_range] at hj
    omega
  · rintro ⟨h1, h2⟩
    exact ⟨(i - a).toNat, List.mem_range.mpr (by omega), by omega⟩

theorem intRange_map_add (a b : ℤ) (f : ℤ → ℝ) :
    (intRange a b).map f = (List.range (b - a).toNat).map (fun (j : ℕ) => f (a + (j : ℤ))) := by
  unfold intRange
  rw [List.map_map]
  rfl

/-- Reading every position of a list with `getD` reproduces the list. -/
theorem map_getD_range (l : List ℝ) :
    (List.range l.length).map (fun j => l.getD j 0) = l := by
  apply List.ext_getElem (by simp)
  intro i h1 h2
  simp only [List.getElem_map, List.getElem_range, List.getD_eq_getElem?_getD,
    List.getElem?_eq_getElem h2, Option.getD_some]

/-- Embeds `struct Kernel` from `filter.hpp` (the `sse_size`/`avx_size`
fields only direct SIMD loop trip counts and are omitted; `weights` is the
`AlignedBuffer<T>` contents). -/
structure Kernel where
  weights : List ℝ
  radius : ℤ
  size : ℤ
  sum : ℝ

/-- Embeds `make_gauss_kernel` from `filter.hpp`: sigma is clamped to
`max |sigma| 0.01`, the radius is `⌈3·sigma⌉`, and the weights are samples
of the Gaussian density `coeff · exp(−i²/(2σ²))` at the integer offsets
`i ∈ [−radius+1, radius−1]`; `sum` accumulates all the weights. -/
noncomputable def make_gauss_kernel (sigma : ℝ) : Kernel :=
  let s := max |sigma| 0.01
  let w : ℤ := ⌈(3 : ℝ) * s⌉
  let sigsqr := s * s
  let expdenom := 2 * sigsqr
  let coeff := 1 / (Real.sqrt (Real.pi * 2) * s)
  let weights := (intRange (-w + 1) w).map
    (fun (i : ℤ) => coeff * Real.exp (-((i : ℝ) * (i : ℝ) / expdenom)))
  { weights := weights
    radius := w
    size := 2 * w - 1
    sum := weights.sum }

/-- Embeds `weighted_avg` from `filter.hpp`.  Interior positions divide the
weighted sum by the precomputed `kernel.sum`; positions where the support
runs off either end of `samples` sum only the in-range taps and divide by
the sum `wsum` of the weights actually used.  `samples[i]` and
`kernel.weights[i - start]` are embedded as `getD` at indices that the
loop bounds keep in range. -/
noncomputable def weighted_avg (samples : List ℝ) (kernel : Kernel) (index : ℤ) : ℝ :=
  let start := index - kernel.radius + 1
  let stop := index + kernel.radius
  if start < 0 ∨ stop > (samples.length : ℤ) then
    let loopstart := max start 0
    let loopstop := min stop (samples.length : ℤ)
    let wsum := ((intRange loopstart loopstop).map
      (fun i => kernel.weights.getD (i - start).toNat 0)).sum
    let s := ((intRange loopstart loopstop).map
      (fun i => samples.getD i.toNat 0 * kernel.weights.getD (i - start).toNat 0)).sum
    s / wsum
  else
    ((intRange start stop).map
      (fun i => samples.getD i.toNat 0 * kernel.weights.getD (i - start).toNat 0)).sum
      / kernel.sum

/-- Embeds `apply_filter` from `filter.hpp`: one `weighted_avg` per input
position.  (The C++ version writes into a caller-supplied buffer that is
only grown, never shrunk; the first `samples.length` entries are the ones
computed, and are the ones embedded here.) -/
noncomputable def apply_filter (samples : List ℝ) (kernel : Kernel) : List ℝ :=
  (List.range samples.length).map (fun (i : ℕ) => weighted_avg samples kernel (i : ℤ))

theorem make_gauss_kernel_radius_def (sigma : ℝ) :
    (make_gauss_kernel sigma).radius = ⌈(3 : ℝ) * max |sigma| 0.01⌉ := rfl

theorem make_gauss_kernel_radius_pos (sigma : ℝ) : 1 ≤ (make_gauss_kernel sigma).radius := by
  rw [make_gauss_kernel_radius_def]
  have h1 : (0 : ℝ) < 3 * max |sigma| 0.01 := by
    have : (0.01 : ℝ) ≤ max |sigma| 0.01 := le_max_right _ _
    nlinarith
  exact Int.ceil_pos.mpr h1

theorem make_gauss_kernel_weights_length (sigma : ℝ) :
    (make_gauss_kernel sigma).weights.length
      = (2 * (make_gauss_kernel sigma).radius - 1).toNat := by
  unfold make_gauss_kernel
  simp only [List.length_map, intRange_length]
  congr 1
  omega

theorem make_gauss_kernel_weights_pos (sigma : ℝ) :
    ∀ x ∈ (make_gauss_kernel sigma).weights, 0 < x := by
  intro x hx
  have hs : (0 : ℝ) < max |sigma| 0.01 := lt_of_lt_of_le (by norm_num) (le_max_right _ _)
  obtain ⟨i, _, rfl⟩ := List.mem_map.mp hx
  have hsqrt : (0 : ℝ) < Real.sqrt (Real.pi * 2) := by
    apply Real.sqrt_pos.mpr
    have := Real.pi_pos
    linarith
  have hcoeff : (0 : ℝ) < 1 / (Real.sqrt (Real.pi * 2) * max |sigma| 0.01) := by
    positivity
  exact mul_pos hcoeff (Real.exp_pos _)

theorem make_gauss_kernel_sum_def (sigma : ℝ) :
    (make_gauss_kernel sigma).sum = (make_gauss_kernel sigma).weights.sum := rfl

theorem gauss_weight_getD_pos (sigma : ℝ) {j : ℕ}
    (hj : j < (make_gauss_kernel sigma).weights.length) :
    0 < (make_gauss_kernel sigma).weights.getD j 0 := by
  rw [List.getD_eq_getElem _ _ hj]
  exact make_gauss_kernel_weights_pos sigma _ (List.getElem_mem hj)

/-- Multiplying a constant through a mapped sum. -/
theorem sum_map_mul_left_list {α : Type} (l : List α) (c : ℝ) (f : α → ℝ) :
    (l.map (fun x => c * f x)).sum = c * (l.map f).sum := by
  induction l with
  | nil => simp
  | cons a t ih => simp [ih]; ring

/-- Core renormalization fact behind claim C4: `weighted_avg` with any
Gaussian kernel maps a constant array to that constant at every position,
interior or boundary. -/
theorem weighted_avg_const (sigma c : ℝ) (n i : ℕ) (hi : i < n) :
    weighted_avg (List.replicate n c) (make_gauss_kernel sigma) (i : ℤ) = c := by
  have hw := make_gauss_kernel_radius_pos sigma
  have hlen := make_gauss_kernel_weights_length sigma
  set k := make_gauss_kernel sigma with hk
  unfold weighted_avg
  simp only [List.length_replicate]
  set start := (i : ℤ) - k.radius + 1 with hstart
  set stop := (i : ℤ) + k.radius with hstop
  have hrepl : ∀ m : ℤ, 0 ≤ m → m < (n : ℤ) → (List.replicate n c).getD m.toNat 0 = c := by
    intro m hm0 hmn
    have hmn' : m.toNat < n := by omega
    rw [List.getD_eq_getElem _ _ (by simpa using hmn')]
    exact List.getElem_replicate _ _
  have hwidx : ∀ m : ℤ, start ≤ m → m < stop → (m - start).toNat < k.weights.length := by
    intro m hm1 hm2
    rw [hlen]
    omega
  by_cases hcond : start < 0 ∨ stop > (n : ℤ)
  · rw [if_pos hcond]
    set loopstart := max start 0 with hls
    set loopstop := min stop (n : ℤ) with hlt
    have hmem : ∀ m ∈ intRange loopstart loopstop,
        (List.replicate n c).getD m.toNat 0 * k.weights.getD (m - start).toNat 0
          = c * k.weights.getD (m - start).toNat 0 := by
      intro m hm
      obtain ⟨h1, h2⟩ := mem_intRange.mp hm
      rw [hrepl m (by omega) (by omega)]
    rw [List.map_congr_left hmem, sum_map_mul_left_list]
    have hwpos : ∀ x ∈ (intRange loopstart loopstop).map
        (fun m => k.weights.getD (m - start).toNat 0), 0 < x := by
      intro x hx
      obtain ⟨m, hm, rfl⟩ := List.mem_map.mp hx
      obtain ⟨h1, h2⟩ := mem_intRange.mp hm
      exact gauss_weight_getD_pos sigma (hwidx m (by omega) (by omega))
    have hne : intRange loopstart loopstop ≠ [] := by
      have : (i : ℤ) ∈ intRange loopstart loopstop := mem_intRange.mpr (by omega)
      intro hnil
      rw [hnil] at this
      exact List.not_mem_nil _ this
    have hsum_pos : 0 < ((intRange loopstart loopstop).map
        (fun m => k.weights.getD (m - start).toNat 0)).sum := by
      apply List.sum_pos _ hwpos
      intro hnil
      exact hne (List.map_eq_nil_iff.mp hnil)
    rw [mul_div_assoc, div_self (ne_of_gt hsum_pos), mul_one]
  · rw [if_neg hcond]
    push_neg at hcond
    obtain ⟨hc1, hc2⟩ := hcond
    have hmem : ∀ m ∈ intRange start stop,
        (List.replicate n c).getD m.toNat 0 * k.weights.getD (m - start).toNat 0
          = c * k.weights.getD (m - start).toNat 0 := by
      intro m hm
      obtain ⟨h1, h2⟩ := mem_intRange.mp hm
      rw [hrepl m (by omega) (by omega)]
    rw [List.map_congr_left hmem, sum_map_mul_left_list]
    have hreidx : (intRange start stop).map (fun m => k.weights.getD (m - start).toNat 0)
        = (List.range (stop - start).toNat).map (fun j => k.weights.getD j 0) := by
      rw [intRange_map_add]
      apply List.map_congr_left
      intro j _
      congr 1
      omega
    have hrange_len : (stop - start).toNat = k.weights.length := by
      rw [hlen]
      omega
    rw [hreidx, hrange_len, map_getD_range]
    have hsum_pos : 0 < k.weights.sum := by
      apply List.sum_pos _ (make_gauss_kernel_weights_pos sigma)
      have : 0 < k.weights.length := by rw [hlen]; omega
      intro hnil
      rw [hnil] at this
      simp at this
    rw [make_gauss_kernel_sum_def]
    rw [mul_div_assoc, div_self (ne_of_gt hsum_pos), mul_one]

theorem apply_filter_getD (samples : List ℝ) (kernel : Kernel) (i : ℕ)
    (hi : i < samples.length) :
    (apply_filter samples kernel).getD i 0 = weighted_avg samples kernel (i : ℤ) := by
  unfold apply_filter
  have hlen : i < ((List.range samples.length).map
      (fun (j : ℕ) => weighted_avg samples kernel (j : ℤ))).length := by
    rw [List.length_map, List.length_range]
    exact hi
  rw [List.getD_eq_getElem _ _ hlen, List.getElem_map, List.getElem_range]

/-- C4: for every sample array, Gaussian kernel and output position
(interior or boundary), the effective weights applied by the Gaussian
post-filter sum to 1: equivalently, `weighted_avg` and `apply_filter`
return the constant itself on a constant array at every position.
(Interior positions divide by the precomputed `kernel.sum`, boundary
positions by the sum of only the in-range weights.) -/
theorem C4_gauss_filter_renormalization (sigma c : ℝ) (n i : ℕ) (hi : i < n) :
    weighted_avg (List.replicate n c) (make_gauss_kernel sigma) (i : ℤ) = c ∧
    (apply_filter (List.replicate n c) (make_gauss_kernel sigma)).getD i 0 = c := by
  refine ⟨weighted_avg_const sigma c n i hi, ?_⟩
  rw [apply_filter_getD _ _ _ (by simpa using hi)]
  exact weighted_avg_const sigma c n i hi

/-- Witness for C4 at a concrete boundary-including instance. -/
theorem C4_witness :
    (0 < 4 ∧
      weighted_avg (List.replicate 4 (5 : ℝ)) (make_gauss_kernel 1) ((0 : ℕ) : ℤ) = 5 ∧
      (apply_filter (List.replicate 4 (5 : ℝ)) (make_gauss_kernel 1)).getD 0 0 = 5) := by
  refine ⟨by norm_num, ?_, ?_⟩
  · exact (C4_gauss_filter_renormalization 1 5 4 0 (by norm_num)).1
  · exact (C4_gauss_filter_renormalization 1 5 4 0 (by norm_num)).2

theorem intRange_getElem (a b : ℤ) (j : ℕ) (hj : j < (intRange a b).length) :
    (intRange a b)[j] = a + (j : ℤ) := by
  unfold intRange
  rw [List.getElem_map, List.getElem_range]

/-- Density of the normal distribution with mean 0 and standard deviation
`s`, sampled at the integer offset `i` — the shape the spec ascribes to the
Gaussian kernel weights ("normalized samples of the Gaussian density"). -/
noncomputable def gauss_density (s : ℝ) (i : ℤ) : ℝ :=
  (1 / (Real.sqrt (Real.pi * 2) * s)) * Real.exp (-((i : ℝ) * (i : ℝ) / (2 * (s * s))))

theorem gauss_density_neg (s : ℝ) (i : ℤ) : gauss_density s (-i) = gauss_density s i := by
  unfold gauss_density
  push_cast
  ring_nf

theorem make_gauss_kernel_weights_eq (sigma : ℝ) :
    (make_gauss_kernel sigma).weights
      = (intRange (-(make_gauss_kernel sigma).radius + 1) (make_gauss_kernel sigma).radius).map
          (gauss_density (max |sigma| 0.01)) := rfl

theorem make_gauss_kernel_weights_getD (sigma : ℝ) (j : ℕ)
    (hj : j < (make_gauss_kernel sigma).weights.length) :
    (make_gauss_kernel sigma).weights.getD j 0
      = gauss_density (max |sigma| 0.01) (-(make_gauss_kernel sigma).radius + 1 + (j : ℤ)) := by
  rw [make_gauss_kernel_weights_eq] at hj ⊢
  rw [List.getD_eq_getElem _ _ hj, List.getElem_map, intRange_getElem]

/-- Counterexample to C7 as stated: at `sigma = 0` the code clamps sigma to
`0.01` first, so the radius is `⌈3·0.01⌉ = 1`, not `⌈3·0⌉ = 0`. -/
theorem C7_counterexample :
    (make_gauss_kernel 0).radius = 1 ∧ ⌈(3 : ℝ) * (0 : ℝ)⌉ = 0 ∧ (1 : ℤ) ≠ 0 := by
  refine ⟨?_, by norm_num, by norm_num⟩
  rw [make_gauss_kernel_radius_def]
  have h1 : |(0 : ℝ)| = 0 := abs_zero
  rw [h1]
  have h2 : max (0 : ℝ) 0.01 = 0.01 := by norm_num
  rw [h2]
  rw [Int.ceil_eq_iff]
  norm_num

/-- C7 (amended): for every sigma at or above the clamp threshold `0.01`,
`make_gauss_kernel` uses radius `⌈3·sigma⌉`, its weights are the samples
of the normalized Gaussian density at the integer offsets
`−radius+1, …, radius−1`, and the weight table is symmetric
(`weight[i] = weight[size−1−i]`); at `sigma = 1` the radius is `3`.
(As stated the claim fails for `sigma < 0.01`, where the code substitutes
the clamped sigma `max |sigma| 0.01` in both the radius and the weights.) -/
theorem C7_gauss_kernel_construction (sigma : ℝ) (hs : 0.01 ≤ sigma) :
    (make_gauss_kernel sigma).radius = ⌈(3 : ℝ) * sigma⌉ ∧
    (make_gauss_kernel sigma).weights.length
      = (2 * (make_gauss_kernel sigma).radius - 1).toNat ∧
    (∀ j : ℕ, j < (make_gauss_kernel sigma).weights.length →
      (make_gauss_kernel sigma).weights.getD j 0
        = gauss_density sigma (-(make_gauss_kernel sigma).radius + 1 + (j : ℤ))) ∧
    (∀ j : ℕ, j < (make_gauss_kernel sigma).weights.length →
      (make_gauss_kernel sigma).weights.getD j 0
        = (make_gauss_kernel sigma).weights.getD
            ((make_gauss_kernel sigma).weights.length - 1 - j) 0) := by
  have habs : |sigma| = sigma := abs_of_nonneg (by linarith)
  have hmax : max |sigma| 0.01 = sigma := by
    rw [habs]
    exact max_eq_left hs
  have hlen := make_gauss_kernel_weights_length sigma
  have hw := make_gauss_kernel_radius_pos sigma
  refine ⟨?_, hlen, ?_, ?_⟩
  · rw [make_gauss_kernel_radius_def, hmax]
  · intro j hj
    rw [make_gauss_kernel_weights_getD sigma j hj, hmax]
  · intro j hj
    have hj2 : (make_gauss_kernel sigma).weights.length - 1 - j
        < (make_gauss_kernel sigma).weights.length := by omega
    rw [make_gauss_kernel_weights_getD sigma j hj,
      make_gauss_kernel_weights_getD sigma _ hj2]
    have hcast : ((make_gauss_kernel sigma).weights.length - 1 - j : ℕ)
        = ((2 * (make_gauss_kernel sigma).radius - 1).toNat - 1 - j : ℕ) := by
      rw [hlen]
    rw [hcast]
    have harg : (-(make_gauss_kernel sigma).radius + 1
        + (((2 * (make_gauss_kernel sigma).radius - 1).toNat - 1 - j : ℕ) : ℤ))
        = -(-(make_gauss_kernel sigma).radius + 1 + (j : ℤ)) := by
      have hjlen : j < (2 * (make_gauss_kernel sigma).radius - 1).toNat := by
        rw [← hlen]
        exact hj
      omega
    rw [harg, gauss_density_neg]

/-- Witness for C7 at `sigma = 1`: the hypothesis holds and the radius
comes out as `⌈3⌉ = 3`. -/
theorem C7_witness :
    (0.01 : ℝ) ≤ 1 ∧ (make_gauss_kernel 1).radius = 3 := by
  refine ⟨by norm_num, ?_⟩
  have h := (C7_gauss_kernel_construction 1 (by norm_num)).1
  rw [h, Int.ceil_eq_iff]
  norm_num

theorem getD_map_range (f : ℕ → ℝ) (n i : ℕ) (hi : i < n) :
    ((List.range n).map f).getD i 0 = f i := by
  have hlen : i < ((List.range n).map f).length := by
    rw [List.length_map, List.length_range]
    exact hi
  rw [List.getD_eq_getElem _ _ hlen, List.getElem_map, List.getElem_range]

/-- Embeds `sinc` from `math_funcs.hpp`: `sin(πx)/(πx)` with the removable
singularity at `0` patched to `1`. -/
noncomputable def sinc (x : ℝ) : ℝ :=
  if x = 0 then 1 else Real.sin (Real.pi * x) / (Real.pi * x)

/-- Embeds `lanczos` from `math_funcs.hpp`: the windowed sinc
`sinc(x)·sinc(x/w)` inside the support `|x| < w`, zero outside. -/
noncomputable def lanczos (x w : ℝ) : ℝ :=
  if |x| < w then sinc x * sinc (x / w) else 0

/-- C-style float-to-integer cast (truncation toward zero), as used by
`(intmax_t)x` in `make_lanczos_kernel` and `apply_lanczos_filter`. -/
noncomputable def cTrunc (x : ℝ) : ℤ :=
  if 0 ≤ x then ⌊x⌋ else ⌈x⌉

/-- One node of the Lanczos weight table: the inner `j` loop of
`make_lanczos_kernel` for one fractional index `x`, covering the taps
`j = ix−radius+1 … ix+radius` (inclusive). -/
noncomputable def lanczos_node_weights (x : ℝ) (radius : ℤ) : List ℝ :=
  let ix := cTrunc x
  let start := ix - radius + 1
  let stop := ix + radius
  (intRange start (stop + 1)).map (fun (j : ℤ) => lanczos (x - (j : ℝ)) (radius : ℝ))

/-- Embeds `make_lanczos_kernel` from `filter.hpp`: a flat lookup table of
`size · 2·radius` weights, one node of `2·radius` taps per fractional
index; `sum` is never filled in (stays at the `Kernel` default `0`). -/
noncomputable def make_lanczos_kernel (indices : List ℝ) (radius : ℤ) : Kernel :=
  if ((indices.length : ℤ) ≤ 0) ∨ (radius ≤ 0) then
    { weights := [], radius := 0, size := 0, sum := 0 }
  else
    { weights := (List.range indices.length).flatMap
        (fun (i : ℕ) => lanczos_node_weights (indices.getD i 0) radius)
      radius := radius
      size := (indices.length : ℤ) * (radius * 2)
      sum := 0 }

/-- Embeds `lanczos_convolve` from `filter.hpp`: sums the in-range taps
`i ∈ [max(start,0), min(index+radius+1, sz))` of `samples` against the
kernel node starting at `kernel_base`; no division of any kind. -/
noncomputable def lanczos_convolve (samples : List ℝ) (kernel : Kernel)
    (index kernel_base : ℤ) : ℝ :=
  let start := index - kernel.radius + 1
  let stop := min (index + kernel.radius + 1) (samples.length : ℤ)
  ((intRange (max start 0) stop).map
    (fun (i : ℤ) => samples.getD i.toNat 0
      * kernel.weights.getD (kernel_base + (i - start)).toNat 0)).sum

/-- Embeds the curve version of `apply_lanczos_filter` from `filter.hpp`:
one `lanczos_convolve` per output sample, with the kernel base advancing by
`2·radius` per sample. -/
noncomputable def apply_lanczos_filter (samples : List ℝ) (x : List ℝ)
    (kernel : Kernel) : List ℝ :=
  let d : ℤ := kernel.radius * 2
  (List.range x.length).map
    (fun (i : ℕ) => lanczos_convolve samples kernel (cTrunc (x.getD i 0)) ((i : ℤ) * d))

/-- The value claim C5 ascribes to a Lanczos-filtered output sample near
the array edge: the in-range tap sum divided by the in-range weight sum. -/
noncomputable def lanczos_claimed_value (samples : List ℝ) (kernel : Kernel)
    (index kernel_base : ℤ) : ℝ :=
  let start := index - kernel.radius + 1
  let stop := min (index + kernel.radius + 1) (samples.length : ℤ)
  ((intRange (max start 0) stop).map
    (fun (i : ℤ) => samples.getD i.toNat 0
      * kernel.weights.getD (kernel_base + (i - start)).toNat 0)).sum
  / ((intRange (max start 0) stop).map
      (fun (i : ℤ) => kernel.weights.getD (kernel_base + (i - start)).toNat 0)).sum

theorem sinc_neg (x : ℝ) : sinc (-x) = sinc x := by
  unfold sinc
  by_cases hx : x = 0
  · simp [hx]
  · rw [if_neg (by simpa using hx), if_neg hx, mul_neg, Real.sin_neg, neg_div_neg_eq]

theorem lanczos_neg (x w : ℝ) : lanczos (-x) w = lanczos x w := by
  unfold lanczos
  rw [abs_neg]
  by_cases h : |x| < w
  · rw [if_pos h, if_pos h, sinc_neg, neg_div, sinc_neg]
  · rw [if_neg h, if_neg h]

theorem sinc_half : sinc (1 / 2) = 2 / Real.pi := by
  unfold sinc
  rw [if_neg (by norm_num), show Real.pi * (1 / 2) = Real.pi / 2 by ring,
    Real.sin_pi_div_two]
  have hpi := Real.pi_ne_zero
  field_simp

theorem sinc_sixth : sinc (1 / 6) = 3 / Real.pi := by
  unfold sinc
  rw [if_neg (by norm_num), show Real.pi * (1 / 6) = Real.pi / 6 by ring,
    Real.sin_pi_div_six]
  have hpi := Real.pi_ne_zero
  field_simp
  ring

theorem sinc_three_halves : sinc (3 / 2) = -2 / (3 * Real.pi) := by
  unfold sinc
  rw [if_neg (by norm_num), show Real.pi * (3 / 2) = Real.pi + Real.pi / 2 by ring,
    Real.sin_add, Real.sin_pi, Real.cos_pi, Real.sin_pi_div_two]
  have hpi := Real.pi_ne_zero
  field_simp
  ring

theorem sinc_five_halves : sinc (5 / 2) = 2 / (5 * Real.pi) := by
  unfold sinc
  rw [if_neg (by norm_num), show Real.pi * (5 / 2) = Real.pi / 2 + 2 * Real.pi by ring,
    Real.sin_add_two_pi, Real.sin_pi_div_two]
  have hpi := Real.pi_ne_zero
  field_simp
  ring

theorem sinc_five_sixths : sinc (5 / 6) = 3 / (5 * Real.pi) := by
  unfold sinc
  rw [if_neg (by norm_num), show Real.pi * (5 / 6) = Real.pi - Real.pi / 6 by ring,
    Real.sin_pi_sub, Real.sin_pi_div_six]
  have hpi := Real.pi_ne_zero
  field_simp
  have hden : (2 : ℝ) * (Real.pi * 6 - Real.pi) ≠ 0 := by
    rw [show (2 : ℝ) * (Real.pi * 6 - Real.pi) = 10 * Real.pi by ring]
    exact mul_ne_zero (by norm_num) hpi
  rw [div_eq_iff hden]
  ring

theorem lanczos_half : lanczos (1 / 2) 3 = 6 / Real.pi ^ 2 := by
  unfold lanczos
  rw [if_pos (by rw [abs_of_nonneg (by norm_num : (0:ℝ) ≤ 1 / 2)]; norm_num),
    show (1 : ℝ) / 2 / 3 = 1 / 6 by norm_num, sinc_half, sinc_sixth]
  have hpi := Real.pi_ne_zero
  field_simp
  ring

theorem lanczos_three_halves : lanczos (3 / 2) 3 = -4 / (3 * Real.pi ^ 2) := by
  unfold lanczos
  rw [if_pos (by rw [abs_of_nonneg (by norm_num : (0:ℝ) ≤ 3 / 2)]; norm_num),
    show (3 : ℝ) / 2 / 3 = 1 / 2 by norm_num, sinc_three_halves, sinc_half]
  have hpi := Real.pi_ne_zero
  field_simp
  ring

theorem lanczos_five_halves : lanczos (5 / 2) 3 = 6 / (25 * Real.pi ^ 2) := by
  unfold lanczos
  rw [if_pos (by rw [abs_of_nonneg (by norm_num : (0:ℝ) ≤ 5 / 2)]; norm_num),
    show (5 : ℝ) / 2 / 3 = 5 / 6 by norm_num, sinc_five_halves, sinc_five_sixths]
  have hpi := Real.pi_ne_zero
  field_simp
  ring

theorem flat_length (f : ℕ → List ℝ) (d : ℕ) (hd : ∀ j : ℕ, (f j).length = d) :
    ∀ n : ℕ, ((List.range n).flatMap f).length = n * d := by
  intro n
  induction n with
  | zero => simp
  | succ m ih =>
    rw [List.range_succ, List.flatMap_append, List.length_append, ih,
      List.flatMap_singleton, hd]
    ring

theorem flat_getD (f : ℕ → List ℝ) (d : ℕ) (hd : ∀ j : ℕ, (f j).length = d) :
    ∀ n i k : ℕ, i < n → k < d →
      ((List.range n).flatMap f).getD (i * d + k) 0 = (f i).getD k 0 := by
  intro n
  induction n with
  | zero =>
    intro i k hi _
    exact absurd hi (Nat.not_lt_zero i)
  | succ m ih =>
    intro i k hi hk
    rw [List.range_succ, List.flatMap_append, List.flatMap_singleton]
    by_cases hc : i < m
    · rw [List.getD_append]
      · exact ih i k hc hk
      · rw [flat_length f d hd]
        calc i * d + k < i * d + d := by omega
          _ = (i + 1) * d := by ring
          _ ≤ m * d := Nat.mul_le_mul_right d hc
    · have hi2 : i = m := by omega
      subst hi2
      rw [List.getD_append_right]
      · rw [flat_length f d hd]
        congr 1
        omega
      · rw [flat_length f d hd]
        exact Nat.le_add_right _ _

theorem make_lanczos_kernel_eq (indices : List ℝ) (radius : ℤ)
    (h1 : indices.length ≠ 0) (h2 : 0 < radius) :
    make_lanczos_kernel indices radius
      = { weights := (List.range indices.length).flatMap
            (fun (i : ℕ) => lanczos_node_weights (indices.getD i 0) radius)
          radius := radius
          size := (indices.length : ℤ) * (radius * 2)
          sum := 0 } := by
  unfold make_lanczos_kernel
  rw [if_neg]
  push_neg
  omega

theorem make_lanczos_kernel_radius (indices : List ℝ) (radius : ℤ)
    (h1 : indices.length ≠ 0) (h2 : 0 < radius) :
    (make_lanczos_kernel indices radius).radius = radius := by
  rw [make_lanczos_kernel_eq indices radius h1 h2]

theorem make_lanczos_kernel_weights_def (indices : List ℝ) (radius : ℤ)
    (h1 : indices.length ≠ 0) (h2 : 0 < radius) :
    (make_lanczos_kernel indices radius).weights
      = (List.range indices.length).flatMap
          (fun (i : ℕ) => lanczos_node_weights (indices.getD i 0) radius) := by
  rw [make_lanczos_kernel_eq indices radius h1 h2]

theorem lanczos_node_weights_eq (x : ℝ) (radius : ℤ) :
    lanczos_node_weights x radius
      = (intRange (cTrunc x - radius + 1) ((cTrunc x + radius) + 1)).map
          (fun (j : ℤ) => lanczos (x - (j : ℝ)) (radius : ℝ)) := rfl

theorem lanczos_node_weights_length (x : ℝ) (radius : ℤ) :
    (lanczos_node_weights x radius).length = (radius * 2).toNat := by
  rw [lanczos_node_weights_eq, List.length_map, intRange_length]
  congr 1
  ring

theorem lanczos_node_weights_getD (x : ℝ) (radius : ℤ) (k : ℕ)
    (hk : k < (radius * 2).toNat) :
    (lanczos_node_weights x radius).getD k 0
      = lanczos (x - ((cTrunc x - radius + 1 + (k : ℤ) : ℤ) : ℝ)) (radius : ℝ) := by
  rw [lanczos_node_weights_eq]
  have hlen : k < ((intRange (cTrunc x - radius + 1) ((cTrunc x + radius) + 1)).map
      (fun (j : ℤ) => lanczos (x - (j : ℝ)) (radius : ℝ))).length := by
    rw [List.length_map, intRange_length]
    omega
  rw [List.getD_eq_getElem _ _ hlen, List.getElem_map, intRange_getElem]

/-- C5 (amended): in Lanczos interpolation mode, at every output position
whose kernel support extends past either end of the spectrum array, only
the in-range taps are summed — and the result is exactly that weighted
sum, with no division by the in-range kernel weight sum (nor by anything
else). -/
theorem C5_lanczos_edge_no_renormalization (samples indices : List ℝ) (radius : ℤ)
    (hr : 0 < radius) (i : ℕ) (hi : i < indices.length)
    (hedge : cTrunc (indices.getD i 0) - radius + 1 < 0
      ∨ (samples.length : ℤ) < cTrunc (indices.getD i 0) + radius + 1) :
    (apply_lanczos_filter samples indices (make_lanczos_kernel indices radius)).getD i 0
      = ((intRange (max (cTrunc (indices.getD i 0) - radius + 1) 0)
            (min (cTrunc (indices.getD i 0) + radius + 1) (samples.length : ℤ))).map
          (fun (j : ℤ) => samples.getD j.toNat 0
            * lanczos (indices.getD i 0 - (j : ℝ)) ((radius : ℤ) : ℝ))).sum := by
  have h1 : indices.length ≠ 0 := by omega
  have hrad := make_lanczos_kernel_radius indices radius h1 hr
  simp only [apply_lanczos_filter]
  rw [getD_map_range _ _ _ hi]
  simp only [lanczos_convolve, hrad]
  apply congrArg List.sum
  apply List.map_congr_left
  intro j hj
  obtain ⟨hj1, hj2⟩ := mem_intRange.mp hj
  rw [make_lanczos_kernel_weights_def indices radius h1 hr]
  have hstartle : cTrunc (indices.getD i 0) - radius + 1 ≤ j := by omega
  have hjub : j - (cTrunc (indices.getD i 0) - radius + 1) < radius * 2 := by omega
  have hidx : ((i : ℤ) * (radius * 2)
        + (j - (cTrunc (indices.getD i 0) - radius + 1))).toNat
      = i * (radius * 2).toNat + (j - (cTrunc (indices.getD i 0) - radius + 1)).toNat := by
    have hnn : (0 : ℤ) ≤ (i : ℤ) * (radius * 2) := by positivity
    have hcast : ((i * (radius * 2).toNat : ℕ) : ℤ) = (i : ℤ) * (radius * 2) := by
      push_cast
      rw [Int.toNat_of_nonneg (by omega)]
    omega
  rw [hidx]
  rw [flat_getD (fun (m : ℕ) => lanczos_node_weights (indices.getD m 0) radius)
    ((radius * 2).toNat)
    (fun m => lanczos_node_weights_length (indices.getD m 0) radius)
    indices.length i _ hi (by omega)]
  have harg2 : (cTrunc (indices.getD i 0) - radius + 1
      + ((j - (cTrunc (indices.getD i 0) - radius + 1)).toNat : ℤ)) = j := by omega
  rw [lanczos_node_weights_getD _ _ _ (by omega), harg2]

theorem cTrunc_half : cTrunc ((1 : ℝ) / 2) = 0 := by
  unfold cTrunc
  rw [if_pos (by norm_num)]
  rw [Int.floor_eq_iff]
  norm_num

/-- The Lanczos weight table built for the single fractional index `1/2`
with radius 3, written out tap by tap. -/
theorem lanczos_kernel_table_at_half :
    (make_lanczos_kernel [(1 : ℝ)/2] 3).weights
      = [lanczos (5/2) 3, lanczos (3/2) 3, lanczos (1/2) 3,
         lanczos (-(1/2)) 3, lanczos (-(3/2)) 3, lanczos (-(5/2)) 3] := by
  rw [make_lanczos_kernel_weights_def _ _ (by norm_num) (by norm_num)]
  rw [show List.range ([(1:ℝ)/2].length) = [0] from rfl, List.flatMap_singleton]
  rw [show ([(1:ℝ)/2].getD 0 0) = (1:ℝ)/2 from rfl]
  rw [lanczos_node_weights_eq, cTrunc_half]
  rw [show intRange ((0:ℤ) - 3 + 1) (((0:ℤ) + 3) + 1) = [-2, -1, 0, 1, 2, 3] from by decide]
  simp only [List.map_cons, List.map_nil]
  rw [show ((1:ℝ)/2 - ((-2:ℤ):ℝ)) = 5/2 from by push_cast; ring,
    show ((1:ℝ)/2 - ((-1:ℤ):ℝ)) = 3/2 from by push_cast; ring,
    show ((1:ℝ)/2 - ((0:ℤ):ℝ)) = 1/2 from by push_cast; ring,
    show ((1:ℝ)/2 - ((1:ℤ):ℝ)) = -(1/2) from by push_cast; ring,
    show ((1:ℝ)/2 - ((2:ℤ):ℝ)) = -(3/2) from by push_cast; ring,
    show ((1:ℝ)/2 - ((3:ℤ):ℝ)) = -(5/2) from by push_cast; ring,
    show (((3:ℤ):ℝ)) = (3:ℝ) from by push_cast; ring]

/-- Counterexample to C5 as stated: spectrum `[1,1,1,1,1]`, one output
position at fractional index `1/2` with a radius-3 Lanczos kernel.  The
support (taps −2…3) extends past the left edge, and the code returns the
raw truncated tap sum `818/(75π²) ≈ 1.105`, whereas dividing by the
in-range weight sum — what the claim states — would give exactly `1`. -/
theorem C5_counterexample :
    (apply_lanczos_filter [(1:ℝ), 1, 1, 1, 1] [(1:ℝ)/2]
        (make_lanczos_kernel [(1:ℝ)/2] 3)).getD 0 0 = 818 / 75 / Real.pi ^ 2
    ∧ lanczos_claimed_value [(1:ℝ),1,1,1,1] (make_lanczos_kernel [(1:ℝ)/2] 3)
        (cTrunc ((1:ℝ)/2)) 0 = 1
    ∧ (818 / 75 / Real.pi ^ 2 : ℝ) ≠ 1
    ∧ cTrunc ((1:ℝ)/2) - (make_lanczos_kernel [(1:ℝ)/2] 3).radius + 1 < 0 := by
  refine ⟨?_, ?_, ?_, ?_⟩
  · have hx : ([(1:ℝ)/2].getD 0 0) = (1:ℝ)/2 := rfl
    have hout := C5_lanczos_edge_no_renormalization [(1:ℝ),1,1,1,1] [(1:ℝ)/2] 3
      (by norm_num) 0 (by norm_num) (by rw [hx, cTrunc_half]; norm_num)
    rw [hx, cTrunc_half] at hout
    rw [hout]
    rw [show intRange (((0:ℤ) - 3 + 1) ⊔ 0) (((0:ℤ) + 3 + 1) ⊓ ((([(1:ℝ),1,1,1,1]).length : ℤ)))
        = [0, 1, 2, 3] from by decide]
    simp only [List.map_cons, List.map_nil, List.sum_cons, List.sum_nil]
    rw [show ([(1:ℝ),1,1,1,1].getD (Int.toNat 0) 0) = 1 from rfl,
      show ([(1:ℝ),1,1,1,1].getD (Int.toNat 1) 0) = 1 from rfl,
      show ([(1:ℝ),1,1,1,1].getD (Int.toNat 2) 0) = 1 from rfl,
      show ([(1:ℝ),1,1,1,1].getD (Int.toNat 3) 0) = 1 from rfl,
      show ((1:ℝ)/2 - ((0:ℤ):ℝ)) = 1/2 from by push_cast; ring,
      show ((1:ℝ)/2 - ((1:ℤ):ℝ)) = -(1/2) from by push_cast; ring,
      show ((1:ℝ)/2 - ((2:ℤ):ℝ)) = -(3/2) from by push_cast; ring,
      show ((1:ℝ)/2 - ((3:ℤ):ℝ)) = -(5/2) from by push_cast; ring,
      show (((3:ℤ):ℝ)) = (3:ℝ) from by push_cast; ring,
      lanczos_neg, lanczos_neg, lanczos_neg,
      lanczos_half, lanczos_three_halves, lanczos_five_halves]
    have hpi := Real.pi_ne_zero
    field_simp
    ring
  · rw [cTrunc_half]
    simp only [lanczos_claimed_value]
    rw [make_lanczos_kernel_radius _ _ (by norm_num) (by norm_num)]
    rw [lanczos_kernel_table_at_half]
    rw [show intRange (((0:ℤ) - 3 + 1) ⊔ 0) (((0:ℤ) + 3 + 1) ⊓ ((([(1:ℝ),1,1,1,1]).length : ℤ)))
        = [0, 1, 2, 3] from by decide]
    simp only [List.map_cons, List.map_nil, List.sum_cons, List.sum_nil]
    rw [show ((0:ℤ) + ((0:ℤ) - ((0:ℤ) - 3 + 1))).toNat = 2 from by decide,
      show ((0:ℤ) + ((1:ℤ) - ((0:ℤ) - 3 + 1))).toNat = 3 from by decide,
      show ((0:ℤ) + ((2:ℤ) - ((0:ℤ) - 3 + 1))).toNat = 4 from by decide,
      show ((0:ℤ) + ((3:ℤ) - ((0:ℤ) - 3 + 1))).toNat = 5 from by decide,
      show ([(1:ℝ),1,1,1,1].getD (Int.toNat 0) 0) = 1 from rfl,
      show ([(1:ℝ),1,1,1,1].getD (Int.toNat 1) 0) = 1 from rfl,
      show ([(1:ℝ),1,1,1,1].getD (Int.toNat 2) 0) = 1 from rfl,
      show ([(1:ℝ),1,1,1,1].getD (Int.toNat 3) 0) = 1 from rfl]
    rw [show ([lanczos (5/2) 3, lanczos (3/2) 3, lanczos (1/2) 3,
        lanczos (-(1/2)) 3, lanczos (-(3/2)) 3, lanczos (-(5/2)) 3].getD 2 0) = lanczos (1/2) 3 from rfl,
      show ([lanczos (5/2) 3, lanczos (3/2) 3, lanczos (1/2) 3,
        lanczos (-(1/2)) 3, lanczos (-(3/2)) 3, lanczos (-(5/2)) 3].getD 3 0) = lanczos (-(1/2)) 3 from rfl,
      show ([lanczos (5/2) 3, lanczos (3/2) 3, lanczos (1/2) 3,
        lanczos (-(1/2)) 3, lanczos (-(3/2)) 3, lanczos (-(5/2)) 3].getD 4 0) = lanczos (-(3/2)) 3 from rfl,
      show ([lanczos (5/2) 3, lanczos (3/2) 3, lanczos (1/2) 3,
        lanczos (-(1/2)) 3, lanczos (-(3/2)) 3, lanczos (-(5/2)) 3].getD 5 0) = lanczos (-(5/2)) 3 from rfl]
    simp only [lanczos_neg, one_mul]
    rw [lanczos_half, lanczos_three_halves, lanczos_five_halves]
    apply div_self
    rw [show (6 / Real.pi^2 + (6 / Real.pi^2 + (-4 / (3 * Real.pi^2) + (6 / (25 * Real.pi^2) + 0))))
        = 818 / 75 / Real.pi^2 from by field_simp; ring]
    positivity
  · intro h
    have hpi2 : (0:ℝ) < Real.pi ^ 2 := by positivity
    rw [div_eq_iff (ne_of_gt hpi2), one_mul] at h
    have hlt := Real.pi_lt_d2
    have hgt := Real.pi_gt_three
    nlinarith
  · rw [cTrunc_half, make_lanczos_kernel_radius _ _ (by norm_num) (by norm_num)]
    norm_num

/-- Witness for the amended C5 theorem at the concrete edge-crossing
instance used in the counterexample. -/
theorem C5_witness :
    ((0:ℤ) < 3) ∧ (0 < [(1:ℝ)/2].length) ∧
    (cTrunc ([(1:ℝ)/2].getD 0 0) - 3 + 1 < 0
      ∨ (([(1:ℝ),1,1,1,1].length : ℤ)) < cTrunc ([(1:ℝ)/2].getD 0 0) + 3 + 1) ∧
    ((apply_lanczos_filter [(1:ℝ),1,1,1,1] [(1:ℝ)/2] (make_lanczos_kernel [(1:ℝ)/2] 3)).getD 0 0
      = ((intRange (max (cTrunc ([(1:ℝ)/2].getD 0 0) - 3 + 1) 0)
            (min (cTrunc ([(1:ℝ)/2].getD 0 0) + 3 + 1) (([(1:ℝ),1,1,1,1].length : ℤ)))).map
          (fun (j : ℤ) => [(1:ℝ),1,1,1,1].getD j.toNat 0
            * lanczos ([(1:ℝ)/2].getD 0 0 - (j : ℝ)) (((3:ℤ)) : ℝ))).sum) := by
  refine ⟨by norm_num, by norm_num, ?_, ?_⟩
  · left
    rw [show ([(1:ℝ)/2].getD 0 0) = (1:ℝ)/2 from rfl, cTrunc_half]
    norm_num
  · exact C5_lanczos_edge_no_renormalization [(1:ℝ),1,1,1,1] [(1:ℝ)/2] 3 (by norm_num) 0
      (by norm_num)
      (by left
          rw [show ([(1:ℝ)/2].getD 0 0) = (1:ℝ)/2 from rfl, cTrunc_half]
          norm_num)

/-- Embeds the transform-size validation of `WAVSource::get_settings`
(source.cpp:516-519): sizes below 128 are clamped up to 128, otherwise a
size with nonzero low four bits (`m_fft_size & 15`) is rounded down to a
multiple of 16 (`m_fft_size &= -16`, i.e. `n - n % 16`). -/
def get_settings_fft_size (fft_in : ℕ) : ℕ :=
  if fft_in < 128 then 128
  else if fft_in % 16 ≠ 0 then fft_in - fft_in % 16
  else fft_in

/-- Embeds the cutoff validation of `WAVSource::get_settings`
(source.cpp:521-525): when `(m_cutoff_high - m_cutoff_low) < 1` the pair is
reset to the built-in constants high = 17500, low = 120. -/
def get_settings_cutoffs (low high : ℤ) : ℤ × ℤ :=
  if high - low < 1 then (120, 17500) else (low, high)

/-- Embeds the dB-range validation of `WAVSource::get_settings`
(source.cpp:527-531): when `(m_ceiling - m_floor) < 1` the pair is reset to
ceiling = 0, floor = −120.  Returned as (floor, ceiling). -/
def get_settings_db_range (fl ce : ℤ) : ℤ × ℤ :=
  if ce - fl < 1 then (-120, 0) else (fl, ce)

/-- The registered property defaults from `callbacks::get_defaults`
(source.cpp:145-148): `P_CUTOFF_LOW` 30, `P_CUTOFF_HIGH` 17500,
`P_FLOOR` −65, `P_CEILING` 0. -/
def default_cutoff_low : ℤ := 30

def default_cutoff_high : ℤ := 17500

def default_floor : ℤ := -65

def default_ceiling : ℤ := 0

/-- Counterexample to C6 as stated: with an inverted cutoff pair
(low = high = 50) the code resets the low cutoff to the built-in constant
120 Hz, not to the registered default 30 Hz, so "reset to the defaults" is
wrong for the low cutoff. -/
theorem C6_counterexample :
    get_settings_cutoffs 50 50 = (120, 17500)
    ∧ (get_settings_cutoffs 50 50).1 ≠ default_cutoff_low
    ∧ default_cutoff_low = 30 := by
  refine ⟨rfl, ?_, rfl⟩
  decide

/-- C6 (amended): after `get_settings` consumes a configuration, the
transform size is at least 128 and a multiple of 16 (clamped up to 128 when
smaller, otherwise rounded down to a multiple of 16); if the high cutoff is
not greater than the low cutoff, the pair is reset to the built-in
constants low = 120, high = 17500 (the high value coincides with the
registered default, the low value does not); and if ceiling − floor is not
positive, the pair is reset to ceiling = 0, floor = −120. -/
theorem C6_settings_validation (fft_in : ℕ) (low high fl ce : ℤ) :
    128 ≤ get_settings_fft_size fft_in
    ∧ get_settings_fft_size fft_in % 16 = 0
    ∧ (get_settings_fft_size fft_in
        = if fft_in < 128 then 128 else fft_in - fft_in % 16)
    ∧ (high ≤ low → get_settings_cutoffs low high = (120, 17500))
    ∧ (low < high → get_settings_cutoffs low high = (low, high))
    ∧ (ce ≤ fl → get_settings_db_range fl ce = (-120, 0))
    ∧ (fl < ce → get_settings_db_range fl ce = (fl, ce)) := by
  unfold get_settings_fft_size get_settings_cutoffs get_settings_db_range
  refine ⟨?_, ?_, ?_, ?_, ?_, ?_, ?_⟩
  · split
    · omega
    · split <;> omega
  · split
    · omega
    · split <;> omega
  · split
    · rfl
    · split <;> omega
  · intro h
    rw [if_pos (by omega)]
  · intro h
    rw [if_neg (by omega)]
  · intro h
    rw [if_pos (by omega)]
  · intro h
    rw [if_neg (by omega)]

/-- Witness for C6 at a concrete malformed configuration. -/
theorem C6_witness :
    128 ≤ get_settings_fft_size 100
    ∧ get_settings_fft_size 100 % 16 = 0
    ∧ (get_settings_fft_size 100 = if 100 < 128 then 128 else 100 - 100 % 16)
    ∧ ((50 : ℤ) ≤ 50 → get_settings_cutoffs 50 50 = (120, 17500))
    ∧ ((50 : ℤ) < 50 → get_settings_cutoffs 50 50 = (50, 50))
    ∧ ((5 : ℤ) ≤ 10 → get_settings_db_range 10 5 = (-120, 0))
    ∧ ((10 : ℤ) < 5 → get_settings_db_range 10 5 = (10, 5)) :=
  C6_settings_validation 100 50 50 10 5

/-- Embeds `enum class FFTWindow` from `source.hpp`. -/
inductive FFTWindow
  | NONE
  | HANN
  | HAMMING
  | BLACKMAN
  | BLACKMAN_HARRIS
  | POWER_OF_SINE
deriving DecidableEq

/-- Embeds `enum class TSmoothingMode` from `source.hpp`. -/
inductive TSmoothingMode
  | NONE
  | EXPONENTIAL
  | TVEXPONENTIAL
deriving DecidableEq

/-- Embeds OBS `ns_to_audio_frames` (libobs `util_mul_div64(ns, rate, 1e9)`,
a consumed collaborator): nanoseconds to whole audio frames. -/
def ns_to_audio_frames (rate ns : ℕ) : ℕ :=
  ns * rate / 1000000000

/-- Embeds OBS `audio_frames_to_ns` (libobs `util_mul_div64(frames, 1e9,
rate)`, a consumed collaborator): audio frames to whole nanoseconds. -/
def audio_frames_to_ns (rate frames : ℕ) : ℕ :=
  frames * 1000000000 / rate

/-- `WAVSource::MAX_TS_DELTA` (source.hpp): 16 seconds in nanoseconds. -/
def MAX_TS_DELTA : ℕ := 1000000000 * 16

/-- `WAVSource::CAPTURE_TIMEOUT` (source.hpp): 500 ms in nanoseconds. -/
def CAPTURE_TIMEOUT : ℕ := 1000000 * 500

/-- Embeds `WAVSource::get_audio_sync` (source.hpp): signed delta between
the end of available audio (`m_audio_ts`) and the given time, clamped to
`MAX_TS_DELTA` in magnitude. -/
def get_audio_sync (audio_ts ts : ℕ) : ℤ :=
  let delta := max audio_ts ts - min audio_ts ts
  let delta2 := min delta MAX_TS_DELTA
  if audio_ts < ts then -(delta2 : ℤ) else (delta2 : ℤ)

/-- One audio delivery from the host (`struct audio_data`, a consumed
collaborator): per-channel planar float data (a null plane is `none`),
a frame count and a presentation timestamp in nanoseconds. -/
structure AudioData where
  frames : ℕ
  timestamp : ℕ
  data : ℕ → Option (ℕ → ℝ)

/-- The `WAVSource` fields read and written by `capture_audio` and
`tick_spectrum`.  Float buffers (`m_decibels`, `m_tsmooth_buf`,
`m_window_coefficients`, `m_slope_modifiers`, `m_rolloff_modifiers`) are
embedded as index functions; the capture `circlebuf`s as sample lists.
`source_attached` stands for `(m_audio_source != nullptr ||
m_output_bus_captured)`, `capture_ok` for the outcome of
`check_audio_capture` (an external-source liveness probe), `fft_plan_ok`
for `m_fft_plan != nullptr`, and `tsmooth_ok` for
`m_tsmooth_buf[ch] != nullptr`. -/
structure WavState where
  show_on : Bool
  last_silent : Bool
  capture_channels : ℕ
  output_channels : ℕ
  stereo : Bool
  floor : ℤ
  fft_size : ℕ
  tick_ts : ℕ
  capture_ts : ℕ
  audio_ts : ℕ
  sample_rate : ℕ
  capturebufs : Fin 2 → List ℝ
  decibels : Fin 2 → ℕ → ℝ
  tsmooth : Fin 2 → ℕ → ℝ
  tsmooth_ok : Fin 2 → Bool
  window_func : FFTWindow
  window_coefficients : ℕ → ℝ
  window_sum : ℝ
  fft_plan_ok : Bool
  gravity : ℝ
  tsmoothing : TSmoothingMode
  fast_peaks : Bool
  slope : ℝ
  slope_modifiers : ℕ → ℝ
  normalize_volume : Bool
  volume_target : ℝ
  max_gain : ℝ
  input_rms : ℝ
  rolloff_q : ℝ
  rolloff_rate : ℝ
  rolloff_modifiers : ℕ → ℝ
  capture_ok : Bool
  source_attached : Bool
  channel_base : ℕ
  ignore_mute : Bool

/-- Embeds the `circlebuf` trim idiom used throughout `source.cpp`:
`if(total > max_size) circlebuf_pop_front(buf, nullptr, total - max_size)`
— drop the oldest samples beyond `bound`. -/
def circlebuf_trim (l : List ℝ) (bound : ℕ) : List ℝ :=
  if l.length > bound then l.drop (l.length - bound) else l

theorem circlebuf_trim_length (l : List ℝ) (bound : ℕ) :
    (circlebuf_trim l bound).length = min l.length bound := by
  unfold circlebuf_trim
  split
  · rw [List.length_drop]
    omega
  · omega

/-- The new `m_audio_ts` computed by `capture_audio` (source.cpp:1719-1725):
the delivery timestamp plus its length, except that an implausible
timestamp (further than `MAX_TS_DELTA` from now) is replaced by now. -/
def capture_new_audio_ts (now : ℕ) (audio : AudioData) (s : WavState) : ℕ :=
  let audio_len := audio_frames_to_ns s.sample_rate audio.frames
  let delta := max audio.timestamp now - min audio.timestamp now
  if delta > MAX_TS_DELTA then now else audio.timestamp + audio_len

/-- The clock-drift allowance `dtsamples` computed by `capture_audio`
(source.cpp:1727-1728): positive audio-ahead-of-now drift in samples. -/
def capture_dtsamples (now : ℕ) (audio : AudioData) (s : WavState) : ℕ :=
  let dtaudio := get_audio_sync (capture_new_audio_ts now audio s) now
  if dtaudio > 0 then ns_to_audio_frames s.sample_rate dtaudio.toNat else 0

/-- Embeds the buffer part of `WAVSource::capture_audio`
(source.cpp:1706-1776).  A delivery that arrives with no attached source or
zero capture channels returns early; otherwise the capture timestamp and
`m_audio_ts` are updated, and each active channel appends its plane (or a
zero-filled block of the same length when muted without ignore-mute, or
when the plane is null) and is trimmed to `dtsamples + m_fft_size`
samples.  (The `try_lock` drop path is modelled by the caller simply not
invoking this; the RMS sync-buffer block touches only RMS state no claim
references and is omitted.) -/
def capture_audio (now : ℕ) (audio : AudioData) (muted : Bool) (s : WavState) : WavState :=
  if ¬ s.source_attached ∨ s.capture_channels = 0 then s
  else
    let capture_ts := now
    let audio_ts := capture_new_audio_ts now audio s
    let bufsz := s.fft_size
    let dtsamples := capture_dtsamples now audio s
    let newbufs := fun (j : Fin 2) =>
      if (j : ℕ) < s.capture_channels then
        let block :=
          match audio.data (s.channel_base + (j : ℕ)) with
          | none => List.replicate audio.frames (0 : ℝ)
          | some plane =>
            if muted ∧ ¬ s.ignore_mute then List.replicate audio.frames (0 : ℝ)
            else (List.range audio.frames).map plane
        circlebuf_trim (s.capturebufs j ++ block) (dtsamples + bufsz)
      else s.capturebufs j
    { s with capture_ts := capture_ts, audio_ts := audio_ts, capturebufs := newbufs }

/-- C8: after every processed audio delivery, each active channel's capture
buffer holds at most (current audio/video clock drift in samples) plus one
transform window of data — the stored size never exceeds this bound. -/
theorem C8_capture_buffer_bound (now : ℕ) (audio : AudioData) (muted : Bool)
    (s : WavState) (hsrc : s.source_attached = true) (hch : s.capture_channels ≠ 0)
    (j : Fin 2) (hj : (j : ℕ) < s.capture_channels) :
    ((capture_audio now audio muted s).capturebufs j).length
      ≤ capture_dtsamples now audio s + s.fft_size := by
  unfold capture_audio
  rw [if_neg (by simp [hsrc, hch])]
  simp only
  rw [if_pos hj]
  rw [circlebuf_trim_length]
  omega

/-- A concrete `WAVSource` state for witnesses and counterexamples: one
capture channel at 48 kHz, transform size 128, no window, no smoothing,
nothing optional enabled. -/
noncomputable def baseState : WavState where
  show_on := true
  last_silent := false
  capture_channels := 1
  output_channels := 1
  stereo := false
  floor := -120
  fft_size := 128
  tick_ts := 0
  capture_ts := 0
  audio_ts := 0
  sample_rate := 48000
  capturebufs := fun _ => []
  decibels := fun _ _ => 0
  tsmooth := fun _ _ => 0
  tsmooth_ok := fun _ => true
  window_func := FFTWindow.NONE
  window_coefficients := fun _ => 1
  window_sum := 128
  fft_plan_ok := true
  gravity := 0
  tsmoothing := TSmoothingMode.NONE
  fast_peaks := false
  slope := 0
  slope_modifiers := fun _ => 1
  normalize_volume := false
  volume_target := -3
  max_gain := 30
  input_rms := 0
  rolloff_q := 0
  rolloff_rate := 0
  rolloff_modifiers := fun _ => 0
  capture_ok := true
  source_attached := true
  channel_base := 0
  ignore_mute := false

/-- A two-frame delivery whose (single) plane is the constant 1. -/
noncomputable def audioTwoOnes : AudioData where
  frames := 2
  timestamp := 0
  data := fun _ => some (fun _ => 1)

/-- Witness for C8 at a concrete delivery into `baseState`. -/
theorem C8_witness :
    baseState.source_attached = true
    ∧ baseState.capture_channels ≠ 0
    ∧ ((0 : Fin 2) : ℕ) < baseState.capture_channels
    ∧ ((capture_audio 0 audioTwoOnes false baseState).capturebufs 0).length
        ≤ capture_dtsamples 0 audioTwoOnes baseState + baseState.fft_size := by
  refine ⟨rfl, by simp [baseState], by simp [baseState], ?_⟩
  exact C8_capture_buffer_bound 0 audioTwoOnes false baseState rfl
    (by simp [baseState]) 0 (by simp [baseState])

/-- C10 (amended): a muted delivery appends a zero-filled block of the same
length as the delivered block — provided the ignore-mute setting is off (a
null plane is zero-filled regardless) — and buffer growth is identical to
the unmuted delivery's. -/
theorem C10_muted_zero_push (now : ℕ) (audio : AudioData) (s : WavState)
    (hsrc : s.source_attached = true) (hch : s.capture_channels ≠ 0)
    (hig : s.ignore_mute = false) (j : Fin 2) (hj : (j : ℕ) < s.capture_channels) :
    (capture_audio now audio true s).capturebufs j
      = circlebuf_trim (s.capturebufs j ++ List.replicate audio.frames 0)
          (capture_dtsamples now audio s + s.fft_size)
    ∧ ((capture_audio now audio true s).capturebufs j).length
      = ((capture_audio now audio false s).capturebufs j).length := by
  constructor
  · unfold capture_audio
    rw [if_neg (by simp [hsrc, hch])]
    simp only
    rw [if_pos hj]
    cases hdata : audio.data (s.channel_base + (j : ℕ)) with
    | none => rfl
    | some plane =>
      simp only [hig]
      rfl
  · unfold capture_audio
    rw [if_neg (by simp [hsrc, hch]), if_neg (by simp [hsrc, hch])]
    simp only
    rw [if_pos hj, if_pos hj]
    cases hdata : audio.data (s.channel_base + (j : ℕ)) with
    | none => rfl
    | some plane =>
      simp only [hig]
      rw [circlebuf_trim_length, circlebuf_trim_length]
      simp

/-- Counterexample to C10 as stated: with the ignore-mute option enabled, a
muted delivery appends the real samples, not a zero-filled block — here the
two delivered 1-samples land in the buffer verbatim. -/
theorem C10_counterexample :
    (capture_audio 0 audioTwoOnes true { baseState with ignore_mute := true }).capturebufs 0
      = [(1 : ℝ), 1]
    ∧ [(1 : ℝ), 1] ≠ List.replicate 2 (0 : ℝ) := by
  constructor
  · unfold capture_audio
    rw [if_neg (by simp [baseState])]
    simp only
    rw [if_pos (by simp [baseState])]
    rw [show audioTwoOnes.data (({ baseState with ignore_mute := true } : WavState).channel_base
        + ((0 : Fin 2) : ℕ)) = some (fun _ => 1) from rfl]
    simp only
    rw [if_neg (by simp [baseState])]
    rw [show ({ baseState with ignore_mute := true } : WavState).capturebufs 0 = [] from rfl]
    rw [show (List.range audioTwoOnes.frames).map (fun _ => (1:ℝ)) = [(1:ℝ), 1] from rfl]
    rw [show (([] : List ℝ) ++ [(1:ℝ), 1]) = [(1:ℝ), 1] from rfl]
    unfold circlebuf_trim
    rw [if_neg]
    rw [show ({ baseState with ignore_mute := true } : WavState).fft_size = 128 from rfl]
    rw [show [(1:ℝ), 1].length = 2 from rfl]
    omega
  · simp

/-- Witness for the amended C10 at a concrete muted delivery. -/
theorem C10_witness :
    baseState.source_attached = true
    ∧ baseState.capture_channels ≠ 0
    ∧ baseState.ignore_mute = false
    ∧ ((0 : Fin 2) : ℕ) < baseState.capture_channels
    ∧ ((capture_audio 0 audioTwoOnes true baseState).capturebufs 0
        = circlebuf_trim (baseState.capturebufs 0 ++ List.replicate audioTwoOnes.frames 0)
            (capture_dtsamples 0 audioTwoOnes baseState + baseState.fft_size)
      ∧ ((capture_audio 0 audioTwoOnes true baseState).capturebufs 0).length
        = ((capture_audio 0 audioTwoOnes false baseState).capturebufs 0).length) := by
  refine ⟨rfl, by simp [baseState], rfl, by simp [baseState], ?_⟩
  exact C10_muted_zero_push 0 audioTwoOnes baseState rfl (by simp [baseState]) rfl 0
    (by simp [baseState])

/-- `std::numeric_limits<float>::min()`, the smallest positive normal
32-bit float, `2^(−126)`. -/
noncomputable def flt_min : ℝ := (2 : ℝ) ^ (-126 : ℤ)

/-- `WAVSource::DB_MIN` (source.cpp:43): `20·log10(FLT_MIN)`. -/
noncomputable def DB_MIN : ℝ := 20 * Real.logb 10 flt_min

/-- Embeds `WAVSource::dbfs` (source.hpp): `20·log10(mag)` for positive
magnitudes, the `DB_MIN` floor otherwise. -/
noncomputable def dbfs (mag : ℝ) : ℝ :=
  if mag > 0 then 20 * Real.logb 10 mag else DB_MIN

/-- `std::lerp`. -/
def lerp (a b t : ℝ) : ℝ := a + t * (b - a)

/-- Embeds `WAVSource::get_gravity` (source.hpp): zero when smoothing is
off or gravity nonpositive; a time-variant coefficient in TVEXPONENTIAL
mode; the configured gravity otherwise. -/
noncomputable def get_gravity (s : WavState) (seconds : ℝ) : ℝ :=
  let denom : ℝ := 0.03868924705242879469662125316986
  let hi := denom * 5
  let lo : ℝ := 0
  if s.tsmoothing = TSmoothingMode.NONE ∨ s.gravity ≤ 0 then 0
  else if s.tsmoothing = TSmoothingMode.TVEXPONENTIAL then
    Real.exp (-seconds / lerp lo hi s.gravity)
  else s.gravity

/-- Unsigned 64-bit subtraction `a - b` (for operands below `2^64`), as in
the C++ `m_tick_ts - m_capture_ts`: wraps around on underflow. -/
def u64_sub (a b : ℕ) : ℕ := (a + 2 ^ 64 - b % 2 ^ 64) % 2 ^ 64

/-- The channel indices `0 … n−1` walked by the per-channel loops, as
`Fin 2` indices into the two-element buffer arrays (the code never runs
with more than 2 capture channels). -/
def channelList (n : ℕ) : List (Fin 2) :=
  (List.range n).map (fun k => (⟨k % 2, by omega⟩ : Fin 2))

/-- The per-bin magnitude the scalar backend stores into `m_decibels`
(source_generic.cpp:114-135): `hypot(re,im) · 2/m_window_sum`, optional
slope boost, optional exponential smoothing against `m_tsmooth_buf` (with
fast-peaks taking the max first). -/
noncomputable def spectrum_mag_generic (s : WavState) (g g2 : ℝ) (channel : Fin 2)
    (out : ℕ → ℝ × ℝ) (i : ℕ) : ℝ :=
  let real := (out i).1
  let imag := (out i).2
  let mag0 := Real.sqrt (real * real + imag * imag) * (2 / s.window_sum)
  let mag1 := if s.slope > 0 then mag0 * s.slope_modifiers i else mag0
  if s.tsmoothing ≠ TSmoothingMode.NONE then
    let oldval := if s.fast_peaks then max mag1 (s.tsmooth channel i) else s.tsmooth channel i
    g * oldval + g2 * mag1
  else mag1

/-- The per-bin magnitude the AVX2 backend stores (source_avx2.cpp:118-158):
`sqrt(i·i + r·r) · 2/m_fft_size` (note: `m_fft_size`, not `m_window_sum`),
slope boost, and exponential smoothing with the raw `m_gravity`
coefficient; with fast peaks the max is stored into the smoothing buffer
first and then blended, which yields the same stored value. -/
noncomputable def spectrum_mag_avx2 (s : WavState) (channel : Fin 2)
    (out : ℕ → ℝ × ℝ) (i : ℕ) : ℝ :=
  let real := (out i).1
  let imag := (out i).2
  let mag0 := Real.sqrt (imag * imag + real * real) * (2 / (s.fft_size : ℝ))
  let mag1 := if s.slope > 0 then mag0 * s.slope_modifiers i else mag0
  if s.tsmoothing = TSmoothingMode.EXPONENTIAL then
    let stored := if s.fast_peaks then max mag1 (s.tsmooth channel i) else s.tsmooth channel i
    s.gravity * stored + (1 - s.gravity) * mag1
  else mag1

/-- The reset taken when the source is hidden (or, in the scalar backend,
capture has timed out): zero the smoothing buffers of active channels whose
buffer exists, floor all displayed bins at `DB_MIN`, set the silence flag
(source_generic.cpp:36-48, source_avx2.cpp:37-49). -/
noncomputable def silence_reset (s : WavState) : WavState :=
  let outsz := s.fft_size / 2
  { s with
    tsmooth := fun ch =>
      if (ch : ℕ) < s.capture_channels ∧ s.tsmooth_ok ch
      then (fun i => if i < outsz then 0 else s.tsmooth ch i)
      else s.tsmooth ch
    decibels := fun ch => fun i =>
      if (ch : ℕ) < (if s.stereo then 2 else 1) ∧ i < outsz then DB_MIN
      else s.decibels ch i
    last_silent := true }

/-- `memcpy(m_decibels[1], m_decibels[0], outsz)` when more output channels
are wanted than captured (duplicate channel 0's frame). -/
noncomputable def copy_channel0_stage (s : WavState) : WavState :=
  if s.output_channels > s.capture_channels then
    { s with decibels := (Function.update s.decibels 1
        (fun i => if i < s.fft_size / 2 then s.decibels 0 i else s.decibels 1 i)) }
  else s

/-- The dBFS conversion stage shared by the backends: per-channel in stereo
mode, averaging the two captured channels' pre-dB magnitudes in mono
downmix, plain conversion otherwise. -/
noncomputable def dbfs_stage (s : WavState) : WavState :=
  if s.stereo then
    { s with decibels := fun ch => fun i =>
        if i < s.fft_size / 2 then dbfs (s.decibels ch i) else s.decibels ch i }
  else if s.capture_channels > 1 then
    { s with decibels := (Function.update s.decibels 0
        (fun i => if i < s.fft_size / 2 then dbfs ((s.decibels 0 i + s.decibels 1 i) * 0.5)
         else s.decibels 0 i)) }
  else
    { s with decibels := (Function.update s.decibels 0
        (fun i => if i < s.fft_size / 2 then dbfs (s.decibels 0 i) else s.decibels 0 i)) }

/-- The volume-normalization stage of the scalar backend
(source_generic.cpp:161-167): a single gain
`min(m_volume_target − dbfs(m_input_rms), m_max_gain)` added to bins
`1 … outsz−1` (bin 0 is left untouched by the `i = 1` loop start). -/
noncomputable def normalize_stage (s : WavState) : WavState :=
  if s.normalize_volume then
    let volume_compensation := min (s.volume_target - dbfs s.input_rms) s.max_gain
    { s with decibels := fun ch => fun i =>
        if (ch : ℕ) < (if s.stereo then 2 else 1) ∧ 1 ≤ i ∧ i < s.fft_size / 2
        then s.decibels ch i + volume_compensation
        else s.decibels ch i }
  else s

/-- The roll-off stage (source_generic.cpp:169-179, source_avx2.cpp:186-197):
subtract the per-bin attenuation on bins `1 … outsz−1`, clamped at
`DB_MIN`. -/
noncomputable def rolloff_stage (s : WavState) : WavState :=
  if s.rolloff_q > 0 ∧ s.rolloff_rate > 0 then
    { s with decibels := fun ch => fun i =>
        if (ch : ℕ) < (if s.stereo then 2 else 1) ∧ 1 ≤ i ∧ i < s.fft_size / 2
        then max (s.decibels ch i - s.rolloff_modifiers i) DB_MIN
        else s.decibels ch i }
  else s

open scoped Classical

/-- One iteration of the scalar backend's per-channel loop
(source_generic.cpp:53-136).  The accumulator carries the mutated state and
the running `silent_channels` count.  Skips the channel when fewer than
`dtsize` samples are buffered; otherwise pops down to `dtsize`, peeks one
window, short-circuits silent audio against the silence hysteresis, and
otherwise windows, transforms (via the external `fft` collaborator) and
stores pre-dB magnitudes. -/
noncomputable def tick_channel_generic (fft : (ℕ → ℝ) → ℕ → ℝ × ℝ) (g g2 : ℝ)
    (dtsize : ℕ) (acc : WavState × ℕ) (channel : Fin 2) : WavState × ℕ :=
  let s := acc.1
  let silent_channels := acc.2
  let outsz := s.fft_size / 2
  if (s.capturebufs channel).length ≥ dtsize then
    let buf2 := (s.capturebufs channel).drop ((s.capturebufs channel).length - dtsize)
    let window : ℕ → ℝ := fun i => buf2.getD i 0
    let s1 := { s with capturebufs := Function.update s.capturebufs channel buf2 }
    let silent := ∀ i < s1.fft_size, window i = 0
    let s2 := if silent then s1 else { s1 with last_silent := false }
    if silent ∧ s2.last_silent = true then (s2, silent_channels)
    else
      let outsilent := ∀ i < outsz,
        s2.decibels (if s2.stereo then channel else 0) i ≤ ((s2.floor - 10 : ℤ) : ℝ)
      if silent ∧ outsilent then
        (if silent_channels + 1 ≥ s2.capture_channels
         then { s2 with last_silent := true } else s2,
         silent_channels + 1)
      else
        let input1 : ℕ → ℝ :=
          if s2.window_func ≠ FFTWindow.NONE
          then fun i => if i < s2.fft_size then window i * s2.window_coefficients i
               else window i
          else window
        if s2.fft_plan_ok then
          let out := fft input1
          let newmag := spectrum_mag_generic s2 g g2 channel out
          ({ s2 with
             decibels := (Function.update s2.decibels channel
               (fun i => if i < outsz then newmag i else s2.decibels channel i))
             tsmooth :=
               (if s2.tsmoothing ≠ TSmoothingMode.NONE then
                 Function.update s2.tsmooth channel
                   (fun i => if i < outsz then newmag i else s2.tsmooth channel i)
                else s2.tsmooth) },
           silent_channels)
        else (s2, silent_channels)
  else (s, silent_channels)

/-- One iteration of the AVX2 backend's per-channel loop
(source_avx2.cpp:53-159).  Differs from the scalar loop in the buffer
management (requires only one window, pops `min(dtsize, size − bufsz)`) and
in the stored magnitude (`spectrum_mag_avx2`). -/
noncomputable def tick_channel_avx2 (fft : (ℕ → ℝ) → ℕ → ℝ × ℝ)
    (dtsize : ℕ) (acc : WavState × ℕ) (channel : Fin 2) : WavState × ℕ :=
  let s := acc.1
  let silent_channels := acc.2
  let outsz := s.fft_size / 2
  if (s.capturebufs channel).length ≥ s.fft_size then
    let buf2 := (s.capturebufs channel).drop
      (min dtsize ((s.capturebufs channel).length - s.fft_size))
    let window : ℕ → ℝ := fun i => buf2.getD i 0
    let s1 := { s with capturebufs := Function.update s.capturebufs channel buf2 }
    let silent := ∀ i < s1.fft_size, window i = 0
    let s2 := if silent then s1 else { s1 with last_silent := false }
    if silent ∧ s2.last_silent = true then (s2, silent_channels)
    else
      let outsilent := ∀ i < outsz,
        s2.decibels (if s2.stereo then channel else 0) i ≤ ((s2.floor - 10 : ℤ) : ℝ)
      if silent ∧ outsilent then
        (if silent_channels + 1 ≥ s2.capture_channels
         then { s2 with last_silent := true } else s2,
         silent_channels + 1)
      else
        let input1 : ℕ → ℝ :=
          if s2.window_func ≠ FFTWindow.NONE
          then fun i => if i < s2.fft_size then window i * s2.window_coefficients i
               else window i
          else window
        if s2.fft_plan_ok then
          let out := fft input1
          let newmag := spectrum_mag_avx2 s2 channel out
          ({ s2 with
             decibels := (Function.update s2.decibels channel
               (fun i => if i < outsz then newmag i else s2.decibels channel i))
             tsmooth :=
               (if s2.tsmoothing = TSmoothingMode.EXPONENTIAL then
                 Function.update s2.tsmooth channel
                   (fun i => if i < outsz then newmag i else s2.tsmooth channel i)
                else s2.tsmooth) },
           silent_channels)
        else (s2, silent_channels)
  else (s, silent_channels)

/-- The drift-compensated target size (in samples) the scalar backend keeps
in the capture buffer at Tick time (source_generic.cpp:50-51): positive
audio-ahead drift plus one transform window. -/
def tick_dtsize_generic (s : WavState) : ℕ :=
  let dtaudio := get_audio_sync s.audio_ts s.tick_ts
  (if dtaudio > 0 then ns_to_audio_frames s.sample_rate dtaudio.toNat else 0) + s.fft_size

/-- Embeds `WAVSourceGeneric::tick_spectrum` (source_generic.cpp:26-180).
`fft` is the external FFTW collaborator (a function from the windowed input
buffer to the complex output bins). -/
noncomputable def tick_spectrum_generic (fft : (ℕ → ℝ) → ℕ → ℝ × ℝ) (seconds : ℝ)
    (s : WavState) : WavState :=
  if ¬ s.show_on ∨ u64_sub s.tick_ts s.capture_ts > CAPTURE_TIMEOUT then
    if s.last_silent then s else silence_reset s
  else
    let dtsize := tick_dtsize_generic s
    let g := get_gravity s seconds
    let g2 := 1 - g
    let res := (channelList s.capture_channels).foldl
      (tick_channel_generic fft g g2 dtsize) (s, 0)
    let s1 := res.1
    if s1.last_silent then s1
    else rolloff_stage (normalize_stage (dbfs_stage (copy_channel0_stage s1)))

/-- Embeds `WAVSourceAVX2::tick_spectrum` (source_avx2.cpp:23-198).
Differences from the scalar backend: an explicit `check_audio_capture` /
zero-channel early-out, no capture-timeout reset, a drift size computed
from `seconds`, the `2/m_fft_size` magnitude coefficient with raw
`m_gravity` smoothing, and no volume-normalization stage.  (`seconds` is
the host frame time, nonnegative; its `size_t` cast is embedded as
truncation.) -/
noncomputable def tick_spectrum_avx2 (fft : (ℕ → ℝ) → ℕ → ℝ × ℝ) (seconds : ℝ)
    (s : WavState) : WavState :=
  if ¬ s.capture_ok then s
  else if s.capture_channels = 0 then s
  else if ¬ s.show_on then
    (if s.last_silent then s else silence_reset s)
  else
    let dtsize := (cTrunc (seconds * (s.sample_rate : ℝ))).toNat
    let res := (channelList s.capture_channels).foldl
      (tick_channel_avx2 fft dtsize) (s, 0)
    let s1 := res.1
    if s1.last_silent then s1
    else rolloff_stage (dbfs_stage (copy_channel0_stage s1))

/-- `DB_MIN = 20·log10(2^−126)` lies far below any displayable dB value —
a crude but sufficient bound. -/
theorem DB_MIN_le_neg192 : DB_MIN ≤ -192 := by
  unfold DB_MIN flt_min Real.logb
  rw [Real.log_zpow]
  have h2 := Real.log_two_gt_d9
  have h10a : 0 < Real.log 10 := Real.log_pos (by norm_num)
  have h10b : Real.log 10 ≤ 9 :=
    le_trans (Real.log_le_sub_one_of_pos (by norm_num)) (by norm_num)
  rw [show (20 : ℝ) * ((-126 : ℤ) * Real.log 2 / Real.log 10)
      = (-2520 * Real.log 2) / Real.log 10 from by push_cast; ring]
  rw [div_le_iff h10a]
  nlinarith

theorem tick_channel_generic_skip (fft : (ℕ → ℝ) → ℕ → ℝ × ℝ) (g g2 : ℝ)
    (dtsize : ℕ) (acc : WavState × ℕ) (channel : Fin 2)
    (h : ¬ ((acc.1.capturebufs channel).length ≥ dtsize)) :
    tick_channel_generic fft g g2 dtsize acc channel = acc := by
  unfold tick_channel_generic
  rw [if_neg h]

theorem copy_channel0_stage_id (s : WavState)
    (h : ¬ s.output_channels > s.capture_channels) : copy_channel0_stage s = s := by
  unfold copy_channel0_stage
  rw [if_neg h]

theorem normalize_stage_id (s : WavState) (h : s.normalize_volume = false) :
    normalize_stage s = s := by
  unfold normalize_stage
  rw [if_neg (by simp [h])]

theorem rolloff_stage_id (s : WavState) (h : ¬ (s.rolloff_q > 0 ∧ s.rolloff_rate > 0)) :
    rolloff_stage s = s := by
  unfold rolloff_stage
  rw [if_neg h]

theorem dbfs_stage_normalize_volume (s : WavState) :
    (dbfs_stage s).normalize_volume = s.normalize_volume := by
  unfold dbfs_stage
  split_ifs <;> rfl

theorem dbfs_stage_rolloff_q (s : WavState) :
    (dbfs_stage s).rolloff_q = s.rolloff_q := by
  unfold dbfs_stage
  split_ifs <;> rfl

theorem dbfs_stage_rolloff_rate (s : WavState) :
    (dbfs_stage s).rolloff_rate = s.rolloff_rate := by
  unfold dbfs_stage
  split_ifs <;> rfl

theorem normalize_stage_rolloff_q (s : WavState) :
    (normalize_stage s).rolloff_q = s.rolloff_q := by
  unfold normalize_stage
  split_ifs <;> rfl

theorem normalize_stage_rolloff_rate (s : WavState) :
    (normalize_stage s).rolloff_rate = s.rolloff_rate := by
  unfold normalize_stage
  split_ifs <;> rfl

/-- With normalization and roll-off disabled the post-loop pipeline
reduces to the dBFS conversion. -/
theorem norolloff_rw (s : WavState) (hnorm : s.normalize_volume = false)
    (hroll : ¬ (s.rolloff_q > 0 ∧ s.rolloff_rate > 0)) :
    rolloff_stage (normalize_stage (dbfs_stage s)) = dbfs_stage s := by
  rw [normalize_stage_id _ (by rw [dbfs_stage_normalize_volume]; exact hnorm)]
  rw [rolloff_stage_id _ (by rw [dbfs_stage_rolloff_q, dbfs_stage_rolloff_rate]; exact hroll)]

theorem dbfs_stage_mono_decibels (s : WavState) (hst : s.stereo = false)
    (hc : ¬ s.capture_channels > 1) (i : ℕ) :
    (dbfs_stage s).decibels 0 i
      = if i < s.fft_size / 2 then dbfs (s.decibels 0 i) else s.decibels 0 i := by
  unfold dbfs_stage
  rw [if_neg (by simp [hst]), if_neg hc]
  simp [Function.update_same]

/-- C9 (amended): when a channel's capture buffer holds fewer than one
transform window plus the drift allowance at Tick time, that channel's
transform stage is skipped for the Tick.  If the pipeline was already
flagged silent, the whole Tick is a no-op and the previous dB array is
retained unchanged; if it was not, the shared post-loop dBFS conversion
still runs and re-converts the stale dB contents (`dbfs` is applied a
second time to already-converted values), so the previous contents are not
retained verbatim. -/
theorem C9_insufficient_data_skip (fft : (ℕ → ℝ) → ℕ → ℝ × ℝ) (seconds : ℝ)
    (s : WavState)
    (hshow : s.show_on = true)
    (htime : ¬ u64_sub s.tick_ts s.capture_ts > CAPTURE_TIMEOUT)
    (hch : s.capture_channels = 1)
    (hshort : (s.capturebufs 0).length < tick_dtsize_generic s) :
    (s.last_silent = true → tick_spectrum_generic fft seconds s = s)
    ∧ (s.last_silent = false → s.stereo = false → s.output_channels ≤ 1 →
       s.normalize_volume = false → ¬ (s.rolloff_q > 0 ∧ s.rolloff_rate > 0) →
       ∀ i : ℕ, i < s.fft_size / 2 →
         (tick_spectrum_generic fft seconds s).decibels 0 i = dbfs (s.decibels 0 i)) := by
  have hcond : ¬ (¬ s.show_on = true ∨ u64_sub s.tick_ts s.capture_ts > CAPTURE_TIMEOUT) := by
    simp [hshow, htime]
  have hfold : (channelList s.capture_channels).foldl
      (tick_channel_generic fft (get_gravity s seconds) (1 - get_gravity s seconds)
        (tick_dtsize_generic s)) (s, 0) = (s, 0) := by
    rw [hch]
    rw [show channelList 1 = [0] from by decide]
    rw [List.foldl_cons, List.foldl_nil]
    exact tick_channel_generic_skip _ _ _ _ _ _ (by simpa using hshort)
  constructor
  · intro hls
    unfold tick_spectrum_generic
    rw [if_neg hcond]
    simp only [hfold]
    rw [if_pos hls]
  · intro hls hst hout hnorm hroll i hi
    unfold tick_spectrum_generic
    rw [if_neg hcond]
    simp only [hfold]
    rw [if_neg (by simp [hls])]
    rw [copy_channel0_stage_id s (by omega),
      norolloff_rw s hnorm hroll]
    rw [dbfs_stage_mono_decibels s hst (by omega)]
    rw [if_pos hi]

/-- `baseState` with stale dB contents of −30 in every displayed bin and an
empty capture buffer: a channel that produced output on an earlier Tick and
now has no data. -/
noncomputable def stateC9 : WavState := { baseState with decibels := fun _ _ => -30 }

theorem stateC9_time :
    ¬ u64_sub stateC9.tick_ts stateC9.capture_ts > CAPTURE_TIMEOUT := by
  show ¬ u64_sub 0 0 > CAPTURE_TIMEOUT
  unfold u64_sub CAPTURE_TIMEOUT
  norm_num

theorem stateC9_short : (stateC9.capturebufs 0).length < tick_dtsize_generic stateC9 := by
  have h1 : stateC9.capturebufs 0 = ([] : List ℝ) := rfl
  have h2 : tick_dtsize_generic stateC9 = 128 := by
    unfold tick_dtsize_generic get_audio_sync
    rw [show stateC9.audio_ts = 0 from rfl, show stateC9.tick_ts = 0 from rfl,
      show stateC9.fft_size = 128 from rfl]
    norm_num [MAX_TS_DELTA]
  rw [h1, h2]
  norm_num

/-- Counterexample to C9 as stated: a single-channel state with stale bins
at −30 dB and no buffered data.  The channel is skipped, but because the
silence flag is not set, the post-loop dBFS conversion still reprocesses
the stale array: bin 0 becomes `dbfs(−30) = DB_MIN`, not the retained
−30. -/
theorem C9_counterexample :
    (tick_spectrum_generic (fun _ _ => (0, 0)) 0 stateC9).decibels 0 0 = DB_MIN
    ∧ stateC9.decibels 0 0 = -30
    ∧ DB_MIN ≠ -30 := by
  refine ⟨?_, rfl, ?_⟩
  · have h := (C9_insufficient_data_skip (fun _ _ => (0, 0)) 0 stateC9 rfl stateC9_time
      rfl stateC9_short).2 rfl rfl (by norm_num [stateC9, baseState])
      rfl (by norm_num [stateC9, baseState]) 0 (by norm_num [stateC9, baseState])
    rw [h]
    show dbfs (-30) = DB_MIN
    unfold dbfs
    rw [if_neg (by norm_num)]
  · intro h
    have := DB_MIN_le_neg192
    rw [h] at this
    norm_num at this

/-- Witness for the amended C9 at the same concrete state. -/
theorem C9_witness :
    stateC9.show_on = true
    ∧ ¬ u64_sub stateC9.tick_ts stateC9.capture_ts > CAPTURE_TIMEOUT
    ∧ stateC9.capture_channels = 1
    ∧ (stateC9.capturebufs 0).length < tick_dtsize_generic stateC9
    ∧ ((stateC9.last_silent = true
          → tick_spectrum_generic (fun _ _ => (0, 0)) 0 stateC9 = stateC9)
       ∧ (stateC9.last_silent = false → stateC9.stereo = false
          → stateC9.output_channels ≤ 1 → stateC9.normalize_volume = false
          → ¬ (stateC9.rolloff_q > 0 ∧ stateC9.rolloff_rate > 0)
          → ∀ i : ℕ, i < stateC9.fft_size / 2 →
              (tick_spectrum_generic (fun _ _ => (0, 0)) 0 stateC9).decibels 0 i
                = dbfs (stateC9.decibels 0 i))) :=
  ⟨rfl, stateC9_time, rfl, stateC9_short,
    C9_insufficient_data_skip (fun _ _ => (0, 0)) 0 stateC9 rfl stateC9_time rfl stateC9_short⟩

theorem getD_zero_of_all_zero {l : List ℝ} (h : ∀ x ∈ l, x = 0) (i : ℕ) :
    l.getD i 0 = 0 := by
  rcases lt_or_ge i l.length with hi | hi
  · rw [List.getD_eq_getElem _ _ hi]
    exact h _ (List.getElem_mem hi)
  · rw [List.getD_eq_default _ _ hi]

/-- A silent window while the silence flag is already set only trims the
capture buffer: the channel is skipped before any processing. -/
theorem tchan_silent_skip (fft : (ℕ → ℝ) → ℕ → ℝ × ℝ) (g g2 : ℝ) (dtsize : ℕ)
    (acc : WavState × ℕ) (channel : Fin 2)
    (hlen : (acc.1.capturebufs channel).length ≥ dtsize)
    (hzero : ∀ x ∈ acc.1.capturebufs channel, x = 0)
    (hls : acc.1.last_silent = true) :
    tick_channel_generic fft g g2 dtsize acc channel
      = ({ acc.1 with capturebufs := (Function.update acc.1.capturebufs channel
            ((acc.1.capturebufs channel).drop
              ((acc.1.capturebufs channel).length - dtsize))) },
         acc.2) := by
  unfold tick_channel_generic
  rw [if_pos hlen]
  have hsilent : ∀ i < acc.1.fft_size,
      (List.drop ((acc.1.capturebufs channel).length - dtsize)
        (acc.1.capturebufs channel)).getD i 0 = 0 := by
    intro i _
    apply getD_zero_of_all_zero
    intro x hx
    exact hzero x (List.mem_of_mem_drop hx)
  simp only [hls, if_pos hsilent]
  simp only [and_true]
  rw [if_pos hsilent]

/-- A silent window with the flag still clear and every displayed bin below
`floor − 10`: the channel contributes to the hysteresis count, and the flag
is raised when it is the last active channel to decay. -/
theorem tchan_declare_silent (fft : (ℕ → ℝ) → ℕ → ℝ × ℝ) (g g2 : ℝ) (dtsize : ℕ)
    (acc : WavState × ℕ) (channel : Fin 2)
    (hlen : (acc.1.capturebufs channel).length ≥ dtsize)
    (hzero : ∀ x ∈ acc.1.capturebufs channel, x = 0)
    (hls : acc.1.last_silent = false)
    (hout : ∀ i < acc.1.fft_size / 2,
      acc.1.decibels (if acc.1.stereo = true then channel else 0) i
        ≤ ((acc.1.floor - 10 : ℤ) : ℝ)) :
    tick_channel_generic fft g g2 dtsize acc channel
      = (if acc.2 + 1 ≥ acc.1.capture_channels
         then { acc.1 with
            capturebufs := (Function.update acc.1.capturebufs channel
              ((acc.1.capturebufs channel).drop
                ((acc.1.capturebufs channel).length - dtsize)))
            last_silent := true }
         else { acc.1 with
            capturebufs := (Function.update acc.1.capturebufs channel
              ((acc.1.capturebufs channel).drop
                ((acc.1.capturebufs channel).length - dtsize))) },
         acc.2 + 1) := by
  unfold tick_channel_generic
  rw [if_pos hlen]
  have hsilent : ∀ i < acc.1.fft_size,
      (List.drop ((acc.1.capturebufs channel).length - dtsize)
        (acc.1.capturebufs channel)).getD i 0 = 0 := by
    intro i _
    apply getD_zero_of_all_zero
    intro x hx
    exact hzero x (List.mem_of_mem_drop hx)
  simp only [hls, if_pos hsilent, Bool.false_eq_true, and_false, if_false]
  rw [if_pos ⟨hsilent, hout⟩]

/-- `spectrum_mag_generic` on an all-zero transform output with smoothing
disabled is zero at every bin. -/
theorem spectrum_mag_generic_zero (s : WavState) (g g2 : ℝ) (channel : Fin 2)
    (out : ℕ → ℝ × ℝ) (hout : ∀ i, out i = (0, 0))
    (hsm : s.tsmoothing = TSmoothingMode.NONE) (i : ℕ) :
    spectrum_mag_generic s g g2 channel out i = 0 := by
  unfold spectrum_mag_generic
  rw [hout i, hsm]
  norm_num

/-- A silent window with the flag clear but a still-loud display: the
channel falls through to full processing; with smoothing off and a linear
transform (zero in, zero out) every displayed bin becomes zero (pre-dB). -/
theorem spectrum_mag_generic_zero_fun (s : WavState) (g g2 : ℝ) (channel : Fin 2)
    (out : ℕ → ℝ × ℝ) (hout : ∀ i, out i = (0, 0))
    (hsm : s.tsmoothing = TSmoothingMode.NONE) :
    spectrum_mag_generic s g g2 channel out = fun _ => 0 :=
  funext (fun i => spectrum_mag_generic_zero s g g2 channel out hout hsm i)

theorem tchan_process_zero (fft : (ℕ → ℝ) → ℕ → ℝ × ℝ) (g g2 : ℝ) (dtsize : ℕ)
    (acc : WavState × ℕ) (channel : Fin 2)
    (hlen : (acc.1.capturebufs channel).length ≥ dtsize)
    (hzero : ∀ x ∈ acc.1.capturebufs channel, x = 0)
    (hls : acc.1.last_silent = false)
    (hnotout : ¬ ∀ i < acc.1.fft_size / 2,
      acc.1.decibels (if acc.1.stereo = true then channel else 0) i
        ≤ ((acc.1.floor - 10 : ℤ) : ℝ))
    (hplan : acc.1.fft_plan_ok = true)
    (hsm : acc.1.tsmoothing = TSmoothingMode.NONE)
    (hfft : ∀ f : ℕ → ℝ, (∀ i, f i = 0) → ∀ i, fft f i = (0, 0)) :
    tick_channel_generic fft g g2 dtsize acc channel
      = ({ acc.1 with
          capturebufs := (Function.update acc.1.capturebufs channel
            ((acc.1.capturebufs channel).drop
              ((acc.1.capturebufs channel).length - dtsize)))
          decibels := (Function.update acc.1.decibels channel
            (fun i => if i < acc.1.fft_size / 2 then 0 else acc.1.decibels channel i)) },
        acc.2) := by
  unfold tick_channel_generic
  rw [if_pos hlen]
  have hsilent : ∀ i < acc.1.fft_size,
      (List.drop ((acc.1.capturebufs channel).length - dtsize)
        (acc.1.capturebufs channel)).getD i 0 = 0 := by
    intro i _
    apply getD_zero_of_all_zero
    intro x hx
    exact hzero x (List.mem_of_mem_drop hx)
  have hwin0 : ∀ i : ℕ,
      (List.drop ((acc.1.capturebufs channel).length - dtsize)
        (acc.1.capturebufs channel)).getD i 0 = 0 := by
    intro i
    apply getD_zero_of_all_zero
    intro x hx
    exact hzero x (List.mem_of_mem_drop hx)
  simp only [hls, if_pos hsilent, Bool.false_eq_true, and_false, if_false]
  rw [if_neg (fun h => hnotout h.2)]
  simp only [hplan, if_true, hsm]
  rw [spectrum_mag_generic_zero_fun]
  · simp
  · intro j
    apply hfft
    intro i2
    by_cases hw : acc.1.window_func ≠ FFTWindow.NONE
    · rw [if_pos hw]
      simp only [hwin0, zero_mul, ite_self]
    · rw [if_neg hw]
      simp only [hwin0]
  · rfl


theorem dbfs_zero : dbfs 0 = DB_MIN := by
  unfold dbfs
  rw [if_neg (by norm_num)]

/-- `tick_spectrum` on a single-channel state whose silence flag is clear,
whose window is all-zero and whose displayed bins have already decayed
below `floor − 10`: the Tick declares silence (flag set, hysteresis count
reached) and leaves the decayed dB contents untouched. -/
theorem tick_declare_silent_full (fft : (ℕ → ℝ) → ℕ → ℝ × ℝ) (seconds : ℝ)
    (t : WavState)
    (hshow : t.show_on = true)
    (htime : ¬ u64_sub t.tick_ts t.capture_ts > CAPTURE_TIMEOUT)
    (hch : t.capture_channels = 1)
    (hzero : ∀ x ∈ t.capturebufs 0, x = 0)
    (hlen : (t.capturebufs 0).length ≥ tick_dtsize_generic t)
    (hls : t.last_silent = false)
    (hout : ∀ i < t.fft_size / 2, t.decibels 0 i ≤ ((t.floor - 10 : ℤ) : ℝ)) :
    tick_spectrum_generic fft seconds t
      = { t with
          capturebufs := (Function.update t.capturebufs 0
            ((t.capturebufs 0).drop ((t.capturebufs 0).length - tick_dtsize_generic t)))
          last_silent := true } := by
  have hcond : ¬ (¬ t.show_on = true ∨ u64_sub t.tick_ts t.capture_ts > CAPTURE_TIMEOUT) := by
    simp [hshow, htime]
  have hstep := tchan_declare_silent fft (get_gravity t seconds) (1 - get_gravity t seconds)
    (tick_dtsize_generic t) (t, 0) 0 hlen hzero hls
    (by intro i hi; rw [ite_self]; exact hout i hi)
  simp only [tick_spectrum_generic]
  rw [if_neg hcond]
  rw [show channelList t.capture_channels = [0] from by rw [hch]; decide]
  have hge : (t, 0).2 + 1 ≥ (t, 0).1.capture_channels := by
    show 0 + 1 ≥ t.capture_channels
    rw [hch]
  rw [List.foldl_cons, List.foldl_nil, hstep, if_pos hge]
  split_ifs with h2
  · rfl
  · exact absurd rfl h2

/-- The state produced by a Tick that processes an all-zero window with
smoothing off: the buffer trimmed to `dtsize`, every displayed bin of
channel 0 at `dbfs 0 = DB_MIN`. -/
noncomputable def silent_tick_result (s : WavState) (dtsize : ℕ) : WavState :=
  { s with
    capturebufs := (Function.update s.capturebufs 0
      ((s.capturebufs 0).drop ((s.capturebufs 0).length - dtsize)))
    decibels := (Function.update s.decibels 0
      (fun i => if i < s.fft_size / 2 then DB_MIN else s.decibels 0 i)) }

theorem C2_silence_flag_and_floor (fft : (ℕ → ℝ) → ℕ → ℝ × ℝ) (seconds seconds2 : ℝ) (s : WavState)
    (hshow : s.show_on = true)
    (htime : ¬ u64_sub s.tick_ts s.capture_ts > CAPTURE_TIMEOUT)
    (hch : s.capture_channels = 1)
    (hout1 : s.output_channels = 1)
    (hstereo : s.stereo = false)
    (hsm : s.tsmoothing = TSmoothingMode.NONE)
    (hplan : s.fft_plan_ok = true)
    (hnorm : s.normalize_volume = false)
    (hroll : ¬ (s.rolloff_q > 0 ∧ s.rolloff_rate > 0))
    (hzero : ∀ x ∈ s.capturebufs 0, x = 0)
    (hlen : (s.capturebufs 0).length ≥ tick_dtsize_generic s)
    (hls : s.last_silent = false)
    (hloud : ¬ ∀ i < s.fft_size / 2, s.decibels 0 i ≤ ((s.floor - 10 : ℤ) : ℝ))
    (hfloor : DB_MIN ≤ ((s.floor - 10 : ℤ) : ℝ))
    (hfft : ∀ f : ℕ → ℝ, (∀ i, f i = 0) → ∀ i, fft f i = (0, 0)) :
    (tick_spectrum_generic fft seconds s).last_silent = false
    ∧ (∀ i < s.fft_size / 2, (tick_spectrum_generic fft seconds s).decibels 0 i = DB_MIN)
    ∧ (tick_spectrum_generic fft seconds2 (tick_spectrum_generic fft seconds s)).last_silent
        = true
    ∧ (∀ i < s.fft_size / 2,
        (tick_spectrum_generic fft seconds2 (tick_spectrum_generic fft seconds s)).decibels 0 i
          = DB_MIN) := by
  have hcond : ¬ (¬ s.show_on = true ∨ u64_sub s.tick_ts s.capture_ts > CAPTURE_TIMEOUT) := by
    simp [hshow, htime]
  have hstep := tchan_process_zero fft (get_gravity s seconds) (1 - get_gravity s seconds)
    (tick_dtsize_generic s) (s, 0) 0 hlen hzero hls
    (by simpa [ite_self] using hloud) hplan hsm hfft
  have hs1 : tick_spectrum_generic fft seconds s
      = dbfs_stage ({ s with
          capturebufs := (Function.update s.capturebufs 0
            ((s.capturebufs 0).drop ((s.capturebufs 0).length - tick_dtsize_generic s)))
          decibels := (Function.update s.decibels 0
            (fun i => if i < s.fft_size / 2 then 0 else s.decibels 0 i)) }) := by
    simp only [tick_spectrum_generic]
    rw [if_neg hcond]
    rw [show channelList s.capture_channels = [0] from by rw [hch]; decide]
    rw [List.foldl_cons, List.foldl_nil, hstep]
    simp only [hls]
    rw [if_neg (by simp)]
    rw [copy_channel0_stage_id _ (by simp [hch, hout1])]
    rw [norolloff_rw _ (by simpa using hnorm) (by simpa using hroll)]
  have hs1' : tick_spectrum_generic fft seconds s
      = silent_tick_result s (tick_dtsize_generic s) := by
    rw [hs1]
    unfold dbfs_stage
    rw [if_neg (by simp [hstereo]), if_neg (by simp [hch])]
    have hfun : Function.update
        (Function.update s.decibels 0
          (fun i => if i < s.fft_size / 2 then 0 else s.decibels 0 i)) 0
        (fun i => if i < s.fft_size / 2
          then dbfs ((Function.update s.decibels 0
            (fun j => if j < s.fft_size / 2 then 0 else s.decibels 0 j)) 0 i)
          else (Function.update s.decibels 0
            (fun j => if j < s.fft_size / 2 then 0 else s.decibels 0 j)) 0 i)
        = Function.update s.decibels 0
          (fun i => if i < s.fft_size / 2 then DB_MIN else s.decibels 0 i) := by
      funext ch i
      rcases eq_or_ne ch 0 with hch0 | hch0
      · subst hch0
        simp only [Function.update_same]
        by_cases hi : i < s.fft_size / 2
        · simp only [if_pos hi, dbfs_zero]
        · simp only [if_neg hi]
      · simp only [Function.update_noteq hch0]
    unfold silent_tick_result
    simp only [WavState.mk.injEq]
    simp only [true_and, and_true]
    exact hfun
  have hcb : (silent_tick_result s (tick_dtsize_generic s)).capturebufs 0
      = (s.capturebufs 0).drop ((s.capturebufs 0).length - tick_dtsize_generic s) := by
    show (Function.update s.capturebufs 0
      ((s.capturebufs 0).drop ((s.capturebufs 0).length - tick_dtsize_generic s))) 0 = _
    rw [Function.update_same]
  have hdec : ∀ i, (silent_tick_result s (tick_dtsize_generic s)).decibels 0 i
      = if i < s.fft_size / 2 then DB_MIN else s.decibels 0 i := by
    intro i
    show (Function.update s.decibels 0
      (fun j => if j < s.fft_size / 2 then DB_MIN else s.decibels 0 j)) 0 i = _
    rw [Function.update_same]
  have hdt : tick_dtsize_generic (silent_tick_result s (tick_dtsize_generic s))
      = tick_dtsize_generic s := rfl
  have htick2 := tick_declare_silent_full fft seconds2
    (silent_tick_result s (tick_dtsize_generic s)) hshow htime hch
    (by intro x hx
        rw [hcb] at hx
        exact hzero x (List.mem_of_mem_drop hx))
    (by rw [hdt, hcb, List.length_drop]
        omega)
    hls
    (by intro i hi
        have hi' : i < s.fft_size / 2 := hi
        rw [hdec i, if_pos hi']
        exact hfloor)
  refine ⟨?_, ?_, ?_, ?_⟩
  · rw [hs1']
    exact hls
  · intro i hi
    rw [hs1', hdec i, if_pos hi]
  · rw [hs1', htick2]
  · intro i hi
    rw [hs1', htick2]
    show (silent_tick_result s (tick_dtsize_generic s)).decibels 0 i = DB_MIN
    rw [hdec i, if_pos hi]

/-- A single-channel state whose displayed bins have decayed to −131 dB
(below `floor − 10 = −130`) and whose capture buffer holds one window of
zeros: the next Tick declares silence. -/
noncomputable def stateC2 : WavState :=
  { baseState with
    decibels := fun _ _ => -131
    capturebufs := fun _ => List.replicate 128 0 }

theorem stateC2_time :
    ¬ u64_sub stateC2.tick_ts stateC2.capture_ts > CAPTURE_TIMEOUT := by
  show ¬ u64_sub 0 0 > CAPTURE_TIMEOUT
  unfold u64_sub CAPTURE_TIMEOUT
  norm_num

theorem stateC2_dtsize : tick_dtsize_generic stateC2 = 128 := by
  unfold tick_dtsize_generic get_audio_sync
  rw [show stateC2.audio_ts = 0 from rfl, show stateC2.tick_ts = 0 from rfl,
    show stateC2.fft_size = 128 from rfl]
  norm_num [MAX_TS_DELTA]

/-- Counterexample to C2 as stated: an all-zero window arriving while the
decayed bins sit at −131 dB (below the `floor − 10` hysteresis threshold)
makes the silence flag true, but the bins keep their decayed value −131 —
they are not set to `DB_MIN`.  (The silent path returns before any write
to the dB array; bins only reach `DB_MIN` if a zero window was actually
processed on an earlier Tick.) -/
theorem C2_counterexample :
    (tick_spectrum_generic (fun _ _ => (0, 0)) 0 stateC2).last_silent = true
    ∧ (tick_spectrum_generic (fun _ _ => (0, 0)) 0 stateC2).decibels 0 0 = -131
    ∧ (-131 : ℝ) ≠ DB_MIN := by
  have h := tick_declare_silent_full (fun _ _ => (0, 0)) 0 stateC2 rfl stateC2_time rfl
    (by intro x hx
        exact List.eq_of_mem_replicate hx)
    (by rw [stateC2_dtsize]
        show (List.replicate 128 (0 : ℝ)).length ≥ 128
        rw [List.length_replicate])
    rfl
    (by intro i hi
        show (-131 : ℝ) ≤ ((-120 - 10 : ℤ) : ℝ)
        norm_num)
  refine ⟨?_, ?_, ?_⟩
  · rw [h]
  · rw [h]
    rfl
  · intro heq
    have hb := DB_MIN_le_neg192
    rw [← heq] at hb
    norm_num at hb

/-- `baseState` with one transform window of zero samples buffered: the
concrete input for the amended C2 (and the cross-backend comparison). -/
noncomputable def silentZeroState : WavState :=
  { baseState with capturebufs := fun _ => List.replicate 128 0 }

theorem silentZeroState_time :
    ¬ u64_sub silentZeroState.tick_ts silentZeroState.capture_ts > CAPTURE_TIMEOUT := by
  show ¬ u64_sub 0 0 > CAPTURE_TIMEOUT
  unfold u64_sub CAPTURE_TIMEOUT
  norm_num

theorem silentZeroState_dtsize : tick_dtsize_generic silentZeroState = 128 := by
  unfold tick_dtsize_generic get_audio_sync
  rw [show silentZeroState.audio_ts = 0 from rfl, show silentZeroState.tick_ts = 0 from rfl,
    show silentZeroState.fft_size = 128 from rfl]
  norm_num [MAX_TS_DELTA]

/-- Witness for the amended C2 at a concrete state: all-zero window, loud
stale bins, smoothing off. -/
theorem C2_witness :
    (tick_spectrum_generic (fun _ _ => (0, 0)) 0 silentZeroState).last_silent = false
    ∧ (∀ i < silentZeroState.fft_size / 2,
        (tick_spectrum_generic (fun _ _ => (0, 0)) 0 silentZeroState).decibels 0 i = DB_MIN)
    ∧ (tick_spectrum_generic (fun _ _ => (0, 0)) 0
        (tick_spectrum_generic (fun _ _ => (0, 0)) 0 silentZeroState)).last_silent = true
    ∧ (∀ i < silentZeroState.fft_size / 2,
        (tick_spectrum_generic (fun _ _ => (0, 0)) 0
          (tick_spectrum_generic (fun _ _ => (0, 0)) 0 silentZeroState)).decibels 0 i
          = DB_MIN) := by
  refine C2_silence_flag_and_floor (fun _ _ => (0, 0)) 0 0 silentZeroState rfl
    silentZeroState_time rfl rfl rfl rfl rfl rfl ?_ ?_ ?_ rfl ?_ ?_ ?_
  · show ¬ ((0 : ℝ) > 0 ∧ (0 : ℝ) > 0)
    norm_num
  · intro x hx
    exact List.eq_of_mem_replicate hx
  · rw [silentZeroState_dtsize]
    show (List.replicate 128 (0 : ℝ)).length ≥ 128
    rw [List.length_replicate]
  · intro hcontra
    have h0 := hcontra 0 (by show (0 : ℕ) < 128 / 2; norm_num)
    have h0' : (0 : ℝ) ≤ ((-120 - 10 : ℤ) : ℝ) := h0
    norm_num at h0'
  · show DB_MIN ≤ ((-120 - 10 : ℤ) : ℝ)
    exact le_trans DB_MIN_le_neg192 (by norm_num)
  · intro f hf i
    rfl

/-- The dB value `normalize_stage` leaves in channel 0's bin `i` (mono):
the compensation gain is added only on bins `1 … outsz−1`. -/
theorem normalize_stage_decibels0 (t : WavState) (hnorm : t.normalize_volume = true)
    (hst : t.stereo = false) (i : ℕ) :
    (normalize_stage t).decibels 0 i
      = if 1 ≤ i ∧ i < t.fft_size / 2
        then t.decibels 0 i + min (t.volume_target - dbfs t.input_rms) t.max_gain
        else t.decibels 0 i := by
  have h01 : ((0 : Fin 2) : ℕ) < (if t.stereo = true then 2 else 1) := by
    rw [hst]
    simp
  unfold normalize_stage
  rw [if_pos hnorm]
  show (if ((0 : Fin 2) : ℕ) < (if t.stereo = true then 2 else 1) ∧ 1 ≤ i ∧ i < t.fft_size / 2
      then t.decibels 0 i + min (t.volume_target - dbfs t.input_rms) t.max_gain
      else t.decibels 0 i) = _
  by_cases hi : 1 ≤ i ∧ i < t.fft_size / 2
  · rw [if_pos ⟨h01, hi⟩, if_pos hi]
  · rw [if_neg (fun hc => hi hc.2), if_neg hi]

/-- C3 (amended): with normalization enabled (mono), the single gain
`min(target − dbfs(rms), max_gain)` is added to bins `1 … outsz−1` of the
Tick's dB array while bin 0 is left untouched (the normalization loop
starts at index 1); and a Tick on a channel already classified Silent
(silence flag set, window still zero) applies no gain at all — the dB
array is returned unchanged. -/
theorem C3_normalization_gain (fft : (ℕ → ℝ) → ℕ → ℝ × ℝ) (seconds : ℝ) (s : WavState)
    (hnorm : s.normalize_volume = true) (hst : s.stereo = false) :
    ((normalize_stage s).decibels 0 0 = s.decibels 0 0)
    ∧ (∀ i, 1 ≤ i → i < s.fft_size / 2 →
        (normalize_stage s).decibels 0 i
          = s.decibels 0 i + min (s.volume_target - dbfs s.input_rms) s.max_gain)
    ∧ (s.last_silent = true → s.show_on = true
        → ¬ u64_sub s.tick_ts s.capture_ts > CAPTURE_TIMEOUT
        → s.capture_channels = 1
        → (∀ x ∈ s.capturebufs 0, x = 0)
        → (s.capturebufs 0).length ≥ tick_dtsize_generic s
        → (tick_spectrum_generic fft seconds s).decibels = s.decibels) := by
  refine ⟨?_, ?_, ?_⟩
  · rw [normalize_stage_decibels0 s hnorm hst 0]
    rw [if_neg (by omega)]
  · intro i h1 hi
    rw [normalize_stage_decibels0 s hnorm hst i, if_pos ⟨h1, hi⟩]
  · intro hls hshow htime hch hzero hlen
    have hcond : ¬ (¬ s.show_on = true ∨ u64_sub s.tick_ts s.capture_ts > CAPTURE_TIMEOUT) := by
      simp [hshow, htime]
    have hstep := tchan_silent_skip fft (get_gravity s seconds) (1 - get_gravity s seconds)
      (tick_dtsize_generic s) (s, 0) 0 hlen hzero hls
    simp only [tick_spectrum_generic]
    rw [if_neg hcond]
    rw [show channelList s.capture_channels = [0] from by rw [hch]; decide]
    rw [List.foldl_cons, List.foldl_nil, hstep]
    split_ifs with hq
    · rfl
    · exact absurd hls hq

/-- A mono state with normalization enabled: constant input RMS of 1
(0 dBFS), target +10 dB, max gain +5 dB, so the compensation gain is
`min(10 − 0, 5) = 5`. -/
noncomputable def stateC3 : WavState :=
  { baseState with
    normalize_volume := true
    input_rms := 1
    volume_target := 10
    max_gain := 5
    last_silent := true
    capturebufs := fun _ => List.replicate 128 0 }

theorem dbfs_one : dbfs 1 = 0 := by
  unfold dbfs
  rw [if_pos (by norm_num : (1 : ℝ) > 0), Real.logb_one]
  norm_num

/-- Counterexample to C3 as stated: with gain 5 the normalization stage
leaves bin 0 at its old value 0 while bin 1 becomes 5 — the gain is not
added uniformly to every bin (the loop starts at i = 1). -/
theorem C3_counterexample :
    (normalize_stage stateC3).decibels 0 0 = 0
    ∧ (normalize_stage stateC3).decibels 0 1 = 5
    ∧ (0 : ℝ) ≠ 5 := by
  have h0 := normalize_stage_decibels0 stateC3 rfl rfl 0
  have h1 := normalize_stage_decibels0 stateC3 rfl rfl 1
  refine ⟨?_, ?_, by norm_num⟩
  · rw [h0, if_neg (by omega)]
    rfl
  · rw [h1, if_pos (⟨le_refl 1, by show (1 : ℕ) < 128 / 2; norm_num⟩
      : 1 ≤ 1 ∧ 1 < stateC3.fft_size / 2)]
    show (0 : ℝ) + min ((10 : ℝ) - dbfs 1) (5 : ℝ) = 5
    rw [dbfs_one]
    norm_num

/-- Witness for the amended C3 at the concrete normalizing state. -/
theorem C3_witness :
    stateC3.normalize_volume = true ∧ stateC3.stereo = false
    ∧ (((normalize_stage stateC3).decibels 0 0 = stateC3.decibels 0 0)
      ∧ (∀ i, 1 ≤ i → i < stateC3.fft_size / 2 →
          (normalize_stage stateC3).decibels 0 i
            = stateC3.decibels 0 i
              + min (stateC3.volume_target - dbfs stateC3.input_rms) stateC3.max_gain)
      ∧ (stateC3.last_silent = true → stateC3.show_on = true
          → ¬ u64_sub stateC3.tick_ts stateC3.capture_ts > CAPTURE_TIMEOUT
          → stateC3.capture_channels = 1
          → (∀ x ∈ stateC3.capturebufs 0, x = 0)
          → (stateC3.capturebufs 0).length ≥ tick_dtsize_generic stateC3
          → (tick_spectrum_generic (fun _ _ => (0, 0)) 0 stateC3).decibels
              = stateC3.decibels)) :=
  ⟨rfl, rfl, C3_normalization_gain (fun _ _ => (0, 0)) 0 stateC3 rfl rfl⟩

/-- With smoothing off and `m_window_sum = m_fft_size`, the scalar and AVX2
per-bin magnitudes coincide. -/
theorem spectrum_mag_eq (t : WavState) (g g2 : ℝ) (channel : Fin 2)
    (out : ℕ → ℝ × ℝ)
    (hsum : t.window_sum = (t.fft_size : ℝ))
    (hsm : t.tsmoothing = TSmoothingMode.NONE) :
    spectrum_mag_generic t g g2 channel out = spectrum_mag_avx2 t channel out := by
  funext i
  simp only [spectrum_mag_generic, spectrum_mag_avx2]
  rw [hsm, hsum]
  rw [if_neg (show ¬ TSmoothingMode.NONE ≠ TSmoothingMode.NONE from fun h => h rfl)]
  rw [if_neg (show ¬ TSmoothingMode.NONE = TSmoothingMode.EXPONENTIAL from by simp)]
  rw [show (out i).1 * (out i).1 + (out i).2 * (out i).2
      = (out i).2 * (out i).2 + (out i).1 * (out i).1 from by ring]

/-- One channel iteration of the two backends coincides when the buffer
holds exactly one transform window (so both trims are no-ops), the window
sum matches the transform size and smoothing is off. -/
theorem tchan_eq (fft : (ℕ → ℝ) → ℕ → ℝ × ℝ) (g g2 : ℝ) (dtg dta : ℕ)
    (t : WavState) (n : ℕ) (channel : Fin 2)
    (hlen : (t.capturebufs channel).length = t.fft_size)
    (hdtg : dtg = t.fft_size)
    (hsum : t.window_sum = (t.fft_size : ℝ))
    (hsm : t.tsmoothing = TSmoothingMode.NONE) :
    tick_channel_generic fft g g2 dtg (t, n) channel
      = tick_channel_avx2 fft dta (t, n) channel := by
  subst hdtg
  have hge : (t.capturebufs channel).length ≥ t.fft_size := hlen.ge
  have hne1 : (TSmoothingMode.NONE ≠ TSmoothingMode.NONE) = False := by simp
  have hne2 : (TSmoothingMode.NONE = TSmoothingMode.EXPONENTIAL) = False := by simp
  simp only [tick_channel_generic, tick_channel_avx2]
  rw [show (t.capturebufs channel).length - t.fft_size = 0 from by omega]
  rw [Nat.min_zero, List.drop_zero]
  simp only [hge, if_true]
  by_cases hsil : ∀ i < t.fft_size, (t.capturebufs channel).getD i 0 = 0
  · simp only [eq_true hsil, if_true, true_and]
    by_cases hls : t.last_silent = true
    · simp only [eq_true hls, if_true]
    · simp only [eq_false hls, if_false]
      by_cases houts : ∀ i < t.fft_size / 2,
          t.decibels (if t.stereo = true then channel else 0) i ≤ ((t.floor - 10 : ℤ) : ℝ)
      · simp only [eq_true houts, if_true]
      · simp only [eq_false houts, if_false]
        by_cases hplan : t.fft_plan_ok = true
        · simp only [eq_true hplan, if_true, hsm, hne1, hne2, if_false]
          simp only [spectrum_mag_eq, hsum, hsm]
        · simp only [eq_false hplan, if_false]
  · simp only [eq_false hsil, if_false, false_and]
    by_cases hplan : t.fft_plan_ok = true
    · simp only [eq_true hplan, if_true, hsm, hne1, hne2, if_false]
      simp only [spectrum_mag_eq, hsum, hsm]
    · simp only [eq_false hplan, if_false]

theorem copy_channel0_stage_normalize_volume (s : WavState) :
    (copy_channel0_stage s).normalize_volume = s.normalize_volume := by
  unfold copy_channel0_stage
  split_ifs <;> rfl

set_option maxHeartbeats 1000000 in
theorem tick_channel_avx2_normalize_volume (fft : (ℕ → ℝ) → ℕ → ℝ × ℝ) (dta : ℕ)
    (acc : WavState × ℕ) (channel : Fin 2) :
    (tick_channel_avx2 fft dta acc channel).1.normalize_volume
      = acc.1.normalize_volume := by
  simp only [tick_channel_avx2]
  by_cases hge : (acc.1.capturebufs channel).length ≥ acc.1.fft_size
  case neg => simp only [eq_false hge, if_false]
  simp only [eq_true hge, if_true]
  by_cases hsil : ∀ i < acc.1.fft_size,
      ((acc.1.capturebufs channel).drop
        (min dta ((acc.1.capturebufs channel).length - acc.1.fft_size))).getD i 0 = 0
  · simp only [eq_true hsil, if_true, true_and]
    by_cases hls : acc.1.last_silent = true
    · simp only [eq_true hls, if_true]
    · simp only [eq_false hls, if_false]
      by_cases houts : ∀ i < acc.1.fft_size / 2,
          acc.1.decibels (if acc.1.stereo = true then channel else 0) i
            ≤ ((acc.1.floor - 10 : ℤ) : ℝ)
      · simp only [eq_true houts, if_true]
        by_cases hcnt : acc.2 + 1 ≥ acc.1.capture_channels
        · simp only [eq_true hcnt, if_true]
        · simp only [eq_false hcnt, if_false]
      · simp only [eq_false houts, if_false]
        by_cases hplan : acc.1.fft_plan_ok = true
        · simp only [eq_true hplan, if_true]
        · simp only [eq_false hplan, if_false]
  · simp only [eq_false hsil, if_false, false_and]
    by_cases hplan : acc.1.fft_plan_ok = true
    · simp only [eq_true hplan, if_true]
    · simp only [eq_false hplan, if_false]

/-- C1 (amended): the scalar and AVX2 `tick_spectrum` agree exactly —
whole-state equality — when the features on which they genuinely differ
are switched off: capture live and displayed, one channel holding exactly
one transform window with no drift allowance, `m_window_sum` equal to
`m_fft_size` (the two magnitude denominators), time smoothing off (the two
backends blend with differently-computed gravities), and volume
normalization off (that stage exists only in the scalar backend). -/
theorem C1_backend_equivalence (fft : (ℕ → ℝ) → ℕ → ℝ × ℝ) (seconds seconds2 : ℝ)
    (s : WavState)
    (hcap : s.capture_ok = true)
    (hshow : s.show_on = true)
    (htime : ¬ u64_sub s.tick_ts s.capture_ts > CAPTURE_TIMEOUT)
    (hch : s.capture_channels = 1)
    (hlen : (s.capturebufs 0).length = s.fft_size)
    (hdt : tick_dtsize_generic s = s.fft_size)
    (hsum : s.window_sum = (s.fft_size : ℝ))
    (hsm : s.tsmoothing = TSmoothingMode.NONE)
    (hnorm : s.normalize_volume = false) :
    tick_spectrum_generic fft seconds s = tick_spectrum_avx2 fft seconds2 s := by
  have hcond : ¬ (¬ s.show_on = true ∨ u64_sub s.tick_ts s.capture_ts > CAPTURE_TIMEOUT) := by
    simp [hshow, htime]
  simp only [tick_spectrum_generic, tick_spectrum_avx2]
  rw [if_neg hcond]
  rw [if_neg (not_not_intro hcap)]
  rw [if_neg (show ¬ s.capture_channels = 0 by omega)]
  rw [if_neg (not_not_intro hshow)]
  rw [show channelList s.capture_channels = [0] from by rw [hch]; decide]
  rw [List.foldl_cons, List.foldl_nil]
  rw [tchan_eq fft (get_gravity s seconds) (1 - get_gravity s seconds)
    (tick_dtsize_generic s) ((cTrunc (seconds2 * (s.sample_rate : ℝ))).toNat)
    s 0 0 hlen hdt hsum hsm]
  have hnv : (dbfs_stage (copy_channel0_stage
      (tick_channel_avx2 fft ((cTrunc (seconds2 * (s.sample_rate : ℝ))).toNat)
        (s, 0) 0).1)).normalize_volume = false := by
    rw [dbfs_stage_normalize_volume, copy_channel0_stage_normalize_volume,
      tick_channel_avx2_normalize_volume]
    exact hnorm
  rw [normalize_stage_id _ hnv, List.foldl_cons, List.foldl_nil]

theorem dbfs_stage_stereo (s : WavState) : (dbfs_stage s).stereo = s.stereo := by
  unfold dbfs_stage
  split_ifs <;> rfl

theorem dbfs_stage_fft_size (s : WavState) : (dbfs_stage s).fft_size = s.fft_size := by
  unfold dbfs_stage
  split_ifs <;> rfl

theorem dbfs_stage_volume_target (s : WavState) :
    (dbfs_stage s).volume_target = s.volume_target := by
  unfold dbfs_stage
  split_ifs <;> rfl

theorem dbfs_stage_max_gain (s : WavState) : (dbfs_stage s).max_gain = s.max_gain := by
  unfold dbfs_stage
  split_ifs <;> rfl

theorem dbfs_stage_input_rms (s : WavState) : (dbfs_stage s).input_rms = s.input_rms := by
  unfold dbfs_stage
  split_ifs <;> rfl

theorem tick_channel_avx2_skip (fft : (ℕ → ℝ) → ℕ → ℝ × ℝ) (dta : ℕ)
    (acc : WavState × ℕ) (channel : Fin 2)
    (h : ¬ ((acc.1.capturebufs channel).length ≥ acc.1.fft_size)) :
    tick_channel_avx2 fft dta acc channel = acc := by
  unfold tick_channel_avx2
  rw [if_neg h]

/-- A state on which the two backends demonstrably disagree: every channel
skipped (empty capture buffer), stale pre-display values of 1.0 in the dB
array, volume normalization enabled with gain `min(10 − dbfs(1), 5) = 5`. -/
noncomputable def stateC1 : WavState :=
  { baseState with
    normalize_volume := true
    input_rms := 1
    volume_target := 10
    max_gain := 5
    decibels := fun _ _ => 1 }

theorem stateC1_dtsize : tick_dtsize_generic stateC1 = 128 := by
  unfold tick_dtsize_generic get_audio_sync
  rw [show stateC1.audio_ts = 0 from rfl, show stateC1.tick_ts = 0 from rfl,
    show stateC1.fft_size = 128 from rfl]
  norm_num [MAX_TS_DELTA]

theorem stateC1_time :
    ¬ u64_sub stateC1.tick_ts stateC1.capture_ts > CAPTURE_TIMEOUT := by
  show ¬ u64_sub 0 0 > CAPTURE_TIMEOUT
  unfold u64_sub CAPTURE_TIMEOUT
  norm_num

/-- Counterexample to C1 as stated: on `stateC1` the scalar backend's Tick
leaves bin 1 at `dbfs(1) + 5 = 5` (its volume-normalization stage runs)
while the AVX2 backend's Tick leaves bin 1 at `dbfs(1) = 0` (it has no such
stage) — a 5 dB discrepancy, far beyond any small epsilon such as 1e-4. -/
theorem C1_counterexample :
    (tick_spectrum_generic (fun _ _ => (0, 0)) 0 stateC1).decibels 0 1 = 5
    ∧ (tick_spectrum_avx2 (fun _ _ => (0, 0)) 0 stateC1).decibels 0 1 = 0
    ∧ ¬ |(5 : ℝ) - 0| ≤ 1e-4 := by
  have hcond : ¬ (¬ stateC1.show_on = true
      ∨ u64_sub stateC1.tick_ts stateC1.capture_ts > CAPTURE_TIMEOUT) := by
    simp only [show stateC1.show_on = true from rfl, not_true, false_or]
    exact stateC1_time
  have hshort : ¬ ((stateC1.capturebufs 0).length ≥ tick_dtsize_generic stateC1) := by
    rw [stateC1_dtsize]
    show ¬ (([] : List ℝ).length ≥ 128)
    simp
  have hcopy : ¬ stateC1.output_channels > stateC1.capture_channels := by
    show ¬ (1 : ℕ) > 1
    norm_num
  have hmono : ¬ stateC1.capture_channels > 1 := by
    show ¬ (1 : ℕ) > 1
    norm_num
  have hbin1 : (dbfs_stage stateC1).decibels 0 1 = 0 := by
    rw [dbfs_stage_mono_decibels stateC1 rfl hmono 1]
    rw [if_pos (show (1 : ℕ) < stateC1.fft_size / 2 from by
      show (1 : ℕ) < 128 / 2; norm_num)]
    show dbfs 1 = 0
    exact dbfs_one
  have hroll : ¬ ((dbfs_stage stateC1).rolloff_q > 0
      ∧ (dbfs_stage stateC1).rolloff_rate > 0) := by
    rw [dbfs_stage_rolloff_q, dbfs_stage_rolloff_rate]
    show ¬ ((0 : ℝ) > 0 ∧ (0 : ℝ) > 0)
    norm_num
  have hrollN : ¬ ((normalize_stage (dbfs_stage stateC1)).rolloff_q > 0
      ∧ (normalize_stage (dbfs_stage stateC1)).rolloff_rate > 0) := by
    rw [normalize_stage_rolloff_q, normalize_stage_rolloff_rate]
    exact hroll
  refine ⟨?_, ?_, ?_⟩
  · simp only [tick_spectrum_generic]
    rw [if_neg hcond]
    rw [show channelList stateC1.capture_channels = [0] from by
      rw [show stateC1.capture_channels = 1 from rfl]; decide]
    rw [List.foldl_cons, List.foldl_nil,
      tick_channel_generic_skip _ _ _ _ _ _ hshort]
    rw [if_neg (show ¬ (stateC1, 0).1.last_silent = true from by
      show ¬ false = true; simp)]
    rw [copy_channel0_stage_id _ hcopy]
    rw [rolloff_stage_id _ hrollN]
    rw [normalize_stage_decibels0 (dbfs_stage stateC1)
      (by rw [dbfs_stage_normalize_volume]; rfl)
      (by rw [dbfs_stage_stereo]; rfl) 1]
    rw [if_pos (⟨le_refl 1, by rw [dbfs_stage_fft_size]; show (1 : ℕ) < 128 / 2; norm_num⟩
      : 1 ≤ 1 ∧ 1 < (dbfs_stage stateC1).fft_size / 2)]
    rw [hbin1, dbfs_stage_volume_target, dbfs_stage_max_gain, dbfs_stage_input_rms]
    show (0 : ℝ) + min ((10 : ℝ) - dbfs 1) 5 = 5
    rw [dbfs_one]
    norm_num
  · simp only [tick_spectrum_avx2]
    rw [if_neg (not_not_intro (show stateC1.capture_ok = true from rfl))]
    rw [if_neg (show ¬ stateC1.capture_channels = 0 from by
      show ¬ (1 : ℕ) = 0; norm_num)]
    rw [if_neg (not_not_intro (show stateC1.show_on = true from rfl))]
    rw [show channelList stateC1.capture_channels = [0] from by
      rw [show stateC1.capture_channels = 1 from rfl]; decide]
    rw [List.foldl_cons, List.foldl_nil,
      tick_channel_avx2_skip _ _ _ _ (by
        show ¬ (([] : List ℝ).length ≥ 128)
        simp)]
    rw [if_neg (show ¬ (stateC1, 0).1.last_silent = true from by
      show ¬ false = true; simp)]
    rw [copy_channel0_stage_id _ hcopy]
    rw [rolloff_stage_id _ hroll]
    exact hbin1
  · rw [sub_zero, abs_of_nonneg (by norm_num : (0 : ℝ) ≤ 5)]
    norm_num

/-- Witness for the amended C1: at the all-zero one-window state the two
backends' Ticks coincide exactly. -/
theorem C1_witness :
    tick_spectrum_generic (fun _ _ => (0, 0)) 0 silentZeroState
      = tick_spectrum_avx2 (fun _ _ => (0, 0)) 0 silentZeroState := by
  refine C1_backend_equivalence (fun _ _ => (0, 0)) 0 0 silentZeroState rfl rfl
    silentZeroState_time rfl ?_ ?_ ?_ rfl rfl
  · show (List.replicate 128 (0 : ℝ)).length = 128
    rw [List.length_replicate]
  · rw [silentZeroState_dtsize]
    rfl
  · show (128 : ℝ) = ((128 : ℕ) : ℝ)
    norm_num

end Waveform
